import Mathlib

/-!
Verification development for the crawler ingestion pipeline.

Python strings are modelled as `List Char` (Python indexing/slicing is by
character, which matches list operations exactly).  Each Python `re`
operation used by the source is translated as a direct recursive scanner
with the same leftmost / greedy / non-greedy semantics as the concrete
pattern it implements.  Scanners use an explicit fuel argument (always
called with fuel strictly larger than the input length, and every step
consumes at least one character of input), which keeps every definition
kernel-reducible.
-/

namespace Crawler

instance {α β : Type _} [DecidableEq α] [DecidableEq β] : DecidableEq (Except α β) :=
  fun x y =>
    match x, y with
    | .ok a, .ok b =>
        if h : a = b then .isTrue (by rw [h]) else .isFalse (by simp [h])
    | .error a, .error b =>
        if h : a = b then .isTrue (by rw [h]) else .isFalse (by simp [h])
    | .ok _, .error _ => .isFalse (by simp)
    | .error _, .ok _ => .isFalse (by simp)

abbrev Str := List Char

/-- Python regex `\w`: word character (letters, digits, underscore). -/
def isWordChar (c : Char) : Bool := c.isAlpha || c.isDigit || c == '_'

/-- Python regex `\s` / `str.strip` whitespace set. -/
def isSpaceChar (c : Char) : Bool :=
  c == ' ' || c == '\t' || c == '\n' || c == '\r' || c == '\x0b' || c == '\x0c'

/-- Case-insensitive character comparison (regex `re.IGNORECASE`). -/
def ciEq (a b : Char) : Bool := a.toLower == b.toLower

/-- Does `s` start with pattern `p`, case-insensitively? -/
def startsWithCI : Str → Str → Bool
  | [], _ => true
  | _ :: _, [] => false
  | p :: ps, c :: cs => ciEq p c && startsWithCI ps cs

/-- Does `s` start with pattern `p` (exact characters)? -/
def startsWithEx : Str → Str → Bool
  | [], _ => true
  | _ :: _, [] => false
  | p :: ps, c :: cs => p == c && startsWithEx ps cs

/-- Exact substring occurrence. -/
def containsSeq (pat : Str) : Str → Bool
  | [] => pat.isEmpty
  | c :: rest => startsWithEx pat (c :: rest) || containsSeq pat rest

/-- Case-insensitive substring occurrence. -/
def containsSeqCI (pat : Str) : Str → Bool
  | [] => pat.isEmpty
  | c :: rest => startsWithCI pat (c :: rest) || containsSeqCI pat rest

/-- Model of `re.sub(r'//.*$', '', query, flags=re.MULTILINE)`: from each `//` on,
drop the rest of the line (the newline itself is kept). -/
def stripLineComments : Nat → Str → Str
  | 0, s => s
  | _ + 1, [] => []
  | fuel + 1, '/' :: '/' :: rest =>
      stripLineComments fuel (rest.dropWhile (fun c => !(c == '\n')))
  | fuel + 1, c :: rest => c :: stripLineComments fuel rest

/-- Scan for the closing `*/` of a block comment; `none` if absent. -/
def dropUntilBlockEnd : Nat → Str → Option Str
  | 0, _ => none
  | _ + 1, [] => none
  | _ + 1, '*' :: '/' :: rest => some rest
  | fuel + 1, _ :: rest => dropUntilBlockEnd fuel rest

/-- Model of `re.sub(r'/\*.*?\*/', '', query, flags=re.DOTALL)`: remove each block
comment up to the nearest `*/` (non-greedy); an unterminated `/*` does not
match and is left in place. -/
def stripBlockComments : Nat → Str → Str
  | 0, s => s
  | _ + 1, [] => []
  | fuel + 1, '/' :: '*' :: rest =>
      (match dropUntilBlockEnd (rest.length + 1) rest with
       | some r => stripBlockComments fuel r
       | none => '/' :: '*' :: rest)
  | fuel + 1, c :: rest => c :: stripBlockComments fuel rest

/-- Model of `re.sub(r'\s+', ' ', query)`: collapse whitespace runs to one space. -/
def collapseWs : Nat → Str → Str
  | 0, s => s
  | _ + 1, [] => []
  | fuel + 1, c :: rest =>
      if isSpaceChar c then ' ' :: collapseWs fuel (rest.dropWhile isSpaceChar)
      else c :: collapseWs fuel rest

/-- Python `str.strip()`. -/
def pyStrip (s : Str) : Str :=
  ((s.dropWhile isSpaceChar).reverse.dropWhile isSpaceChar).reverse

/-- Model of `PaginatedQueryExecutor._preprocess_query`: remove single-line comments,
remove multi-line comments, normalize whitespace, strip. -/
def preprocess_query (s : Str) : Str :=
  let s1 := stripLineComments (s.length + 1) s
  let s2 := stripBlockComments (s1.length + 1) s1
  let s3 := collapseWs (s2.length + 1) s2
  pyStrip s3

/-- Word `w` matches at the head of `s`, with a right word boundary
(`w` is assumed to consist of word characters). -/
def wordAt (w : Str) (s : Str) : Bool :=
  startsWithCI w s &&
    (match s.drop w.length with
     | [] => true
     | c :: _ => !(isWordChar c))

/-- Model of `re.search(r'\bW\b', s, re.IGNORECASE)` for a word-character word `W`:
scans tracking whether the previous character was a word character. -/
def containsWordCIAux (w : Str) : Bool → Str → Bool
  | _, [] => false
  | prevWord, c :: rest =>
      (!prevWord && wordAt w (c :: rest)) || containsWordCIAux w (isWordChar c) rest

def containsWordCI (w s : Str) : Bool := containsWordCIAux w false s

/-- Model of `\bRETURN\s+DISTINCT\b` matches at the head of `s` (left boundary is the
caller's business). -/
def returnDistinctAt (s : Str) : Bool :=
  startsWithCI "RETURN".toList s &&
    (let r := s.drop 6
     match r with
     | c :: _ =>
         isSpaceChar c && wordAt "DISTINCT".toList (r.dropWhile isSpaceChar)
     | [] => false)

/-- Model of `re.search(r'\bRETURN\s+DISTINCT\b', s, re.IGNORECASE)`. -/
def hasReturnDistinctAux : Bool → Str → Bool
  | _, [] => false
  | prevWord, c :: rest =>
      (!prevWord && returnDistinctAt (c :: rest)) ||
        hasReturnDistinctAux (isWordChar c) rest

def hasReturnDistinct (s : Str) : Bool := hasReturnDistinctAux false s

/-- The lookahead `(?=\s*(?:ORDER\s+BY|SKIP|LIMIT|$))` holds at `r`. -/
def returnStopAt (r : Str) : Bool :=
  let t := r.dropWhile isSpaceChar
  t.isEmpty || startsWithCI "SKIP".toList t || startsWithCI "LIMIT".toList t ||
    (startsWithCI "ORDER".toList t &&
      (let u := t.drop 5
       match u with
       | c :: _ => isSpaceChar c && startsWithCI "BY".toList (u.dropWhile isSpaceChar)
       | [] => false))

/-- Offset of the first position of `r` where `returnStopAt` holds
(the minimal extension of the non-greedy `.*?`; the end of the string
always satisfies the lookahead via `$`). -/
def findReturnStop : Nat → Str → Nat
  | 0, _ => 0
  | fuel + 1, r =>
      if returnStopAt r then 0
      else match r with
           | [] => 0
           | _ :: rest => 1 + findReturnStop fuel rest

/-- Model of `re.sub(r'\bRETURN\b.*?(?=\s*(?:ORDER\s+BY|SKIP|LIMIT|$))', repl, s,
flags=re.IGNORECASE | re.DOTALL)`: replace each boundary-delimited `RETURN`
together with the minimal following text whose continuation satisfies the
lookahead; scanning resumes at the (zero-width) lookahead position, and the
word-boundary state is taken from the original string. -/
def subReturnAux (repl : Str) : Nat → Bool → Str → Str
  | 0, _, s => s
  | fuel + 1, prevWord, s =>
      match s with
      | [] => []
      | c :: rest =>
          if !prevWord && wordAt "RETURN".toList s then
            let r := s.drop 6
            let j := findReturnStop (r.length + 1) r
            let tl := r.drop j
            let prev' :=
              match (s.take (6 + j)).getLast? with
              | some d => isWordChar d
              | none => prevWord
            repl ++ subReturnAux repl fuel prev' tl
          else c :: subReturnAux repl fuel (isWordChar c) rest

def subReturn (repl s : Str) : Str := subReturnAux repl (s.length + 1) false s

/-- Generic `re.sub(pattern, '', s)` deletion scanner: `m prevWord s` returns
the length of the (nonzero) match at the current position, if any. -/
def subDeleteAux (m : Bool → Str → Option Nat) : Nat → Bool → Str → Str
  | 0, _, s => s
  | fuel + 1, prevWord, s =>
      match s with
      | [] => []
      | c :: rest =>
          match m prevWord s with
          | some n =>
              if n == 0 then c :: subDeleteAux m fuel (isWordChar c) rest
              else
                let prev' :=
                  match (s.take n).getLast? with
                  | some d => isWordChar d
                  | none => prevWord
                subDeleteAux m fuel prev' (s.drop n)
          | none => c :: subDeleteAux m fuel (isWordChar c) rest

def subDelete (m : Bool → Str → Option Nat) (s : Str) : Str :=
  subDeleteAux m (s.length + 1) false s

/-- Match of `\s*\bKW\s+\d+\b` at the current position (`kw` a word-character
keyword such as SKIP or LIMIT): greedy whitespace, the keyword with a left
word boundary, at least one space, digits, and a right word boundary after
the digits. -/
def matchKwNumAt (kw : Str) (prevWord : Bool) (s : Str) : Option Nat :=
  let ws := s.takeWhile isSpaceChar
  let q := s.drop ws.length
  if ws.isEmpty && prevWord then none
  else if startsWithCI kw q then
    let u := q.drop kw.length
    let sp := u.takeWhile isSpaceChar
    if sp.isEmpty then none
    else
      let v := u.drop sp.length
      let ds := v.takeWhile Char.isDigit
      if ds.isEmpty then none
      else
        match v.drop ds.length with
        | [] => some (ws.length + kw.length + sp.length + ds.length)
        | c :: _ =>
            if isWordChar c then none
            else some (ws.length + kw.length + sp.length + ds.length)
  else none

/-- Model of `re.sub(r'\s*\bKW\s+\d+\b', '', s, flags=re.IGNORECASE)`. -/
def stripKwNum (kw s : Str) : Str := subDelete (matchKwNumAt kw) s

/-- The lookahead `(?=\s*(?:SKIP|LIMIT|$))` holds at `r`. -/
def orderStopAt (r : Str) : Bool :=
  let t := r.dropWhile isSpaceChar
  t.isEmpty || startsWithCI "SKIP".toList t || startsWithCI "LIMIT".toList t

def findOrderStop : Nat → Str → Nat
  | 0, _ => 0
  | fuel + 1, r =>
      if orderStopAt r then 0
      else match r with
           | [] => 0
           | _ :: rest => 1 + findOrderStop fuel rest

/-- Match of `\s*\bORDER\s+BY\b.*?(?=\s*(?:SKIP|LIMIT|$))` at the current
position. -/
def matchOrderByAt (prevWord : Bool) (s : Str) : Option Nat :=
  let ws := s.takeWhile isSpaceChar
  let q := s.drop ws.length
  if ws.isEmpty && prevWord then none
  else if startsWithCI "ORDER".toList q then
    let u := q.drop 5
    let sp := u.takeWhile isSpaceChar
    if sp.isEmpty then none
    else
      let v := u.drop sp.length
      if wordAt "BY".toList v then
        let w := v.drop 2
        let j := findOrderStop (w.length + 1) w
        some (ws.length + 5 + sp.length + 2 + j)
      else none
  else none

/-- Model of `PaginatedQueryExecutor._convert_to_count_query`: preprocess, require a
`RETURN` clause (`ValueError` otherwise), detect `RETURN DISTINCT`, replace
the return clause by the count form, strip numeric-literal `SKIP`/`LIMIT`
clauses, strip `ORDER BY`, and strip the result. -/
def convert_to_count_query (query : Str) : Except Str Str :=
  let nq := preprocess_query query
  if !(containsWordCI "RETURN".toList nq) then
    .error "Query must contain a RETURN clause to convert to count query".toList
  else
    let repl :=
      if hasReturnDistinct nq then "RETURN COUNT(DISTINCT *) as count".toList
      else "RETURN COUNT(*) as count".toList
    let q1 := subReturn repl nq
    let q2 := stripKwNum "SKIP".toList q1
    let q3 := stripKwNum "LIMIT".toList q2
    let q4 := subDelete matchOrderByAt q3
    .ok (pyStrip q4)

/-! ### Paginated query executor (`query_pagination.py`)

The Neo4j session is modelled as a function from a query string and
parameters to either a failure or a list of records; records are
association lists.  `execute_paginated_query` and `_get_total_count`
thread it explicitly. -/

abbrev Row := List (String × Int)

abbrev Params := List (String × Int)

/-- Python `dict` update of a single key (replace if present, append if new). -/
def setParam (ps : Params) (k : String) (v : Int) : Params :=
  if ps.any (fun p => p.1 == k) then
    ps.map (fun p => if p.1 == k then (k, v) else p)
  else ps ++ [(k, v)]

/-- Model of `{k: v for k, v in params.items() if k not in ['skip', 'limit']}`. -/
def countParams (ps : Params) : Params :=
  ps.filter (fun p => !(p.1 == "skip") && !(p.1 == "limit"))

def rowLookup (k : String) : Row → Option Int
  | [] => none
  | (k', v) :: rest => if k' == k then some v else rowLookup k rest

/-- Abstract Neo4j session: `session.run` either raises or yields records. -/
abbrev Sess := Str → Params → Except Str (List Row)

/-- Model of `PaginatedQueryExecutor._get_total_count`: strip `skip`/`limit` from the
parameters, derive the count query (a missing `RETURN` raises through), run
it, and fall back to `0` when running the count query fails, when it
produces no record, or when the record has no `count` key. -/
def get_total_count (run : Sess) (query : Str) (params : Params) :
    Except Str Int :=
  let cparams := countParams params
  match convert_to_count_query query with
  | .error e => .error e
  | .ok count_query =>
      .ok (match run count_query cparams with
           | .error _ => 0
           | .ok rows =>
               match rows.head? with
               | none => 0
               | some r =>
                   match rowLookup "count" r with
                   | some v => v
                   | none => 0)

structure QueryResult where
  data : List Row
  total_count : Int
  page : Nat
  page_size : Nat
  has_next : Bool
  deriving Repr, DecidableEq

/-- Model of `PaginatedQueryExecutor.execute_paginated_query` for a 1-indexed `page`:
set `skip = (page - 1) * page_size` and `limit = page_size` in the
parameters, run the data query, derive the total count, and report
`has_next = skip + len(records) < total_count`.  Failures of the data query
or of the count-query derivation re-raise. -/
def execute_paginated_query (run : Sess) (query : Str) (params : Params)
    (page : Nat) (page_size : Nat) : Except Str QueryResult :=
  let skip := (page - 1) * page_size
  let params' := setParam (setParam params "skip" skip) "limit" page_size
  match run query params' with
  | .error e => .error e
  | .ok records =>
      match get_total_count run query params' with
      | .error e => .error e
      | .ok total =>
          .ok { data := records
                total_count := total
                page := page
                page_size := page_size
                has_next := decide ((skip : Int) + records.length < total) }

/-- The query issued by `get_repository_files_paginated` (no type filter). -/
def repoFilesQuery : Str :=
  ("\n    MATCH (r:Repository \x7bname: $repo_name\x7d)-[:CONTAINS]->(f:File)\n    " ++
   "\n    RETURN f.path as path, f.name as name, f.type as type, f.size as size\n    ORDER BY f.path\n    SKIP $skip LIMIT $limit\n    ").toList

/-- The query issued by `get_repository_files_paginated` with a type filter. -/
def repoFilesTypeQuery : Str :=
  ("\n    MATCH (r:Repository \x7bname: $repo_name\x7d)-[:CONTAINS]->(f:File)\n     WHERE f.type = $file_type" ++
   "\n    RETURN f.path as path, f.name as name, f.type as type, f.size as size\n    ORDER BY f.path\n    SKIP $skip LIMIT $limit\n    ").toList

/-- The query issued by `search_code_content_paginated`. -/
def searchContentQuery : Str :=
  "\n    MATCH (f:File)\n    WHERE f.content CONTAINS $search_term\n    RETURN f.path as path, f.name as name, f.repository as repository\n    ORDER BY f.repository, f.path\n    SKIP $skip LIMIT $limit\n    ".toList

/-! ### Content splitting (`data_models.chunk_content`)

`chunk_content` is modelled at the source's default parameters
(`chunk_size = 1000`, `overlap = 100`).  One loop iteration appends one
(stripped) chunk and moves `start` to `end - overlap`; the fuel argument is
always at least `content.length + 1` and every iteration advances `start`
by at least 401, so the fuel never runs out (proved below as the
termination theorem). -/

/-- Python `str.rfind(c)`: index of the last occurrence, `none` if absent
(Python returns `-1`). -/
def rfindChar (c : Char) : Str → Option Nat
  | [] => none
  | d :: rest =>
      match rfindChar c rest with
      | some i => some (i + 1)
      | none => if d == c then some 0 else none

/-- Python slice `l[s:e]` (for `s ≤ e`; an out-of-range `e` is clamped). -/
def pySlice (l : Str) (s e : Nat) : Str := (l.drop s).take (e - s)

/-- The end position of the window starting at `start`: `start + 1000`,
shortened to the last space of the window when the window does not reach
the end of the content and that space's window-relative index exceeds
`start + 500` (the source compares the relative `rfind` result against the
absolute `start + chunk_size // 2`). -/
def chunkStep (content : Str) (start : Nat) : Nat :=
  let e := start + 1000
  if e < content.length then
    match rfindChar ' ' (pySlice content start e) with
    | some ls => if start + 500 < ls then start + ls else e
    | none => e
  else e

def chunkGo (content : Str) : Nat → Nat → List Str
  | 0, _ => []
  | fuel + 1, start =>
      if start < content.length then
        let e := chunkStep content start
        pyStrip (pySlice content start e) :: chunkGo content fuel (e - 100)
      else []

/-- Model of `chunk_content(content)` with the default `chunk_size=1000`,
`overlap=100`: content of at most 1000 characters is returned whole;
otherwise overlapping windows are emitted. -/
def chunk_content (content : Str) : List Str :=
  if content.length ≤ 1000 then [content]
  else chunkGo content (content.length + 1) 0

/-- The `(start, end)` window positions visited by `chunk_content`'s loop. -/
def chunkWindowsGo (content : Str) : Nat → Nat → List (Nat × Nat)
  | 0, _ => []
  | fuel + 1, start =>
      if start < content.length then
        let e := chunkStep content start
        (start, e) :: chunkWindowsGo content fuel (e - 100)
      else []

def chunkWindows (content : Str) : List (Nat × Nat) :=
  chunkWindowsGo content (content.length + 1) 0

/-! ### Content chunks (`data_models.ContentChunk`) and Qdrant points
(`database_ingesters.QdrantIngester._ingest_chunks_batch`) -/

inductive ContentFormat
  | code | documentation | configuration | text | markdown | other
  deriving Repr, DecidableEq

/-- The `.value` of the `ContentFormat` enum. -/
def ContentFormat.value : ContentFormat → Str
  | .code => "code".toList
  | .documentation => "documentation".toList
  | .configuration => "configuration".toList
  | .text => "text".toList
  | .markdown => "markdown".toList
  | .other => "other".toList

/-- Modelled from the spec: stands in for Python `hashlib.md5(...).hexdigest()`
(the hash library is not part of this repository; the spec uses it only as
"a deterministic hash").  A fixed 128-bit polynomial hash rendered as 32
hex digits; every property proved below relies only on it being a fixed
function of its input. -/
def md5hex (s : Str) : Str :=
  let h := s.foldl (fun a c => (a * 131 + c.toNat + 1) % (2 ^ 128)) 5381
  (List.range 32).map (fun i =>
    let d := (h / 16 ^ (31 - i)) % 16
    if d < 10 then Char.ofNat ('0'.toNat + d) else Char.ofNat ('a'.toNat + (d - 10)))

structure ContentChunk where
  chunk_id : Str
  content : Str
  content_format : ContentFormat
  source_path : Str
  metadata : List (String × Str)
  embedding : Option (List Rat)
  deriving Repr, DecidableEq

/-- Model of `ContentChunk.__post_init__`: when the provided `chunk_id` is empty,
set it to `f"\x7bformat.value\x7d_\x7bmd5(f"{source_path}:{content[:100]}")\x7d"`. -/
def post_init_chunk (c : ContentChunk) : ContentChunk :=
  if c.chunk_id.isEmpty then
    { c with chunk_id :=
        c.content_format.value ++ '_' ::
          md5hex (c.source_path ++ ':' :: c.content.take 100) }
  else c

/-- Python `%` for a positive modulus (result in `[0, n)`). -/
def pymod (a n : Int) : Int := (a % n + n) % n

/-- The Qdrant point id computed by `_ingest_chunks_batch`:
`hash(chunk.chunk_id) % (2**63)`, where `h` stands for Python's builtin
string hash (salted per interpreter process, hence passed as a parameter). -/
def point_id (h : Str → Int) (cid : Str) : Int := pymod (h cid) (2 ^ 63)

structure Point where
  id : Int
  vector : List Rat
  payload_content : Str
  payload_content_format : Str
  payload_source_path : Str
  payload_chunk_id : Str
  deriving Repr, DecidableEq

/-- Model of `QdrantIngester._ingest_chunks_batch`: chunks without an embedding are
skipped with a warning; each remaining chunk becomes one point whose id is
`hash(chunk_id) % 2**63` and whose payload carries content, format value,
source path and the chunk id itself. -/
def ingest_chunks_batch (h : Str → Int) (chunks : List ContentChunk) :
    List Point :=
  chunks.filterMap (fun c =>
    match c.embedding with
    | none => none
    | some v =>
        some { id := point_id h c.chunk_id
               vector := v
               payload_content := c.content
               payload_content_format := c.content_format.value
               payload_source_path := c.source_path
               payload_chunk_id := c.chunk_id })

/-! ### Graph writes (`database_ingesters.Neo4jIngester` and
`parse_repo_into_neo4j.DirectNeo4jExtractor._store_repository_graph`)

The graph store is modelled as a set of labelled nodes and typed
relationships; each `session.run`/`tx.run` call of the source becomes one
`CypherRun` with `MERGE`/`MATCH` semantics.  Statement failures are
injected through a `failAt` predicate on the 0-based index of the run in
its sequence.  `Neo4jIngester.ingest` issues every run on a plain session
(each run auto-commits); `_store_repository_graph` issues its runs inside
one explicit transaction and rolls back on the first failure. -/

structure RelSpec where
  rel_type : String
  target : String
  properties : List (String × String)
  deriving Repr, DecidableEq

structure StructuralNode where
  node_type : String
  node_id : String
  properties : List (String × String)
  relationships : List RelSpec
  deriving Repr, DecidableEq

structure ProcessedContent where
  structural_nodes : List StructuralNode
  content_chunks : List ContentChunk
  deriving Repr, DecidableEq

/-- One `session.run`/`tx.run` call issued by either graph-writing path. -/
inductive CypherRun
  /-- Model of `MERGE (n:{node_type} {id: $node_id}) SET n += $properties` -/
  | mergeNode (label : String) (id : String)
  /-- Model of `MATCH (source:{nt} {id:$source_id}) MATCH (target {id:$target_id})
      MERGE (source)-[r:{type}]->(target)` -/
  | mergeRel (srcLabel srcId relType tgtId : String)
  /-- Model of `MERGE (r:Repository {name: $name, ...})` -/
  | mergeRepo (name : String)
  /-- Model of `UNWIND $directories ... MATCH (r:Repository {name:$repo_name})
      MERGE (d:Directory ...) MERGE (r)-[:CONTAINS]->(d)` -/
  | dirBatch (repo : String) (paths : List String)
  /-- Model of `UNWIND $files ... MATCH (r:Repository ...) MERGE (f:File ...)
      MERGE (r)-[:CONTAINS]->(f)` -/
  | fileBatch (repo : String) (paths : List String)
  /-- Model of `UNWIND $relationships ... MATCH (d:Directory ...) MATCH (f:File ...)
      MERGE (d)-[:CONTAINS]->(f)` -/
  | dirRelBatch (repo : String) (pairs : List (String × String))
  deriving Repr, DecidableEq

/-- Graph nodes are `(label, key)`; for ingester nodes the key is the `id`
property, for repository-parse nodes it is `path ++ "|" ++ repository`. -/
structure GraphState where
  nodes : List (String × String)
  rels : List ((String × String) × String × (String × String))
  deriving Repr, DecidableEq

def emptyGraph : GraphState := { nodes := [], rels := [] }

/-- Model of `MERGE` a node: create only if absent. -/
def insertNode (st : GraphState) (n : String × String) : GraphState :=
  if st.nodes.contains n then st else { st with nodes := st.nodes ++ [n] }

/-- Model of `MERGE` a relationship: create only if absent. -/
def insertRel (st : GraphState)
    (r : (String × String) × String × (String × String)) : GraphState :=
  if st.rels.contains r then st else { st with rels := st.rels ++ [r] }

/-- Model of `MATCH (target {id: $target_id})`: any label, keyed by id. -/
def findNodeByKey (st : GraphState) (key : String) : Option (String × String) :=
  st.nodes.find? (fun p => p.2 == key)

def dirKey (repo path : String) : String := path ++ "|" ++ repo

/-- Effect of one run on the store.  A `MATCH` that finds nothing makes the
statement produce zero rows: the statement still succeeds but writes
nothing. -/
def applyRun (r : CypherRun) (st : GraphState) : GraphState :=
  match r with
  | .mergeNode label id => insertNode st (label, id)
  | .mergeRel srcLabel srcId relType tgtId =>
      if st.nodes.contains (srcLabel, srcId) then
        match findNodeByKey st tgtId with
        | some tgt => insertRel st ((srcLabel, srcId), relType, tgt)
        | none => st
      else st
  | .mergeRepo name => insertNode st ("Repository", name)
  | .dirBatch repo paths =>
      paths.foldl (fun st path =>
        if st.nodes.contains ("Repository", repo) then
          let st := insertNode st ("Directory", dirKey repo path)
          insertRel st (("Repository", repo), "CONTAINS",
            ("Directory", dirKey repo path))
        else st) st
  | .fileBatch repo paths =>
      paths.foldl (fun st path =>
        if st.nodes.contains ("Repository", repo) then
          let st := insertNode st ("File", dirKey repo path)
          insertRel st (("Repository", repo), "CONTAINS",
            ("File", dirKey repo path))
        else st) st
  | .dirRelBatch repo pairs =>
      pairs.foldl (fun st pr =>
        if st.nodes.contains ("Directory", dirKey repo pr.1) &&
           st.nodes.contains ("File", dirKey repo pr.2) then
          insertRel st (("Directory", dirKey repo pr.1), "CONTAINS",
            ("File", dirKey repo pr.2))
        else st) st

/-- Python `range(0, len(l), b)` slicing into consecutive batches. -/
def chunksOfAux (b : Nat) : Nat → List α → List (List α)
  | 0, _ => []
  | _ + 1, [] => []
  | fuel + 1, l => l.take b :: chunksOfAux b fuel (l.drop b)

def chunksOf (b : Nat) (l : List α) : List (List α) :=
  chunksOfAux b (l.length + 1) l

/-- The runs `Neo4jIngester._create_nodes_batch` issues for one node: the
node `MERGE` followed by one relationship statement per entry. -/
def nodeRuns (n : StructuralNode) : List CypherRun :=
  CypherRun.mergeNode n.node_type n.node_id ::
    n.relationships.map (fun r =>
      CypherRun.mergeRel n.node_type n.node_id r.rel_type r.target)

/-- All runs `Neo4jIngester.ingest` issues for one `ProcessedContent`,
batched by `batch_size` (batching preserves statement order). -/
def ingestRuns (nodes : List StructuralNode) (batch_size : Nat) :
    List CypherRun :=
  ((chunksOf batch_size nodes).map (fun b => (b.map nodeRuns).flatten)).flatten

/-- The counters of `_create_nodes_batch`: one per node statement executed
and one per relationship statement executed. -/
def create_nodes_batch_counts (batch : List StructuralNode) : Nat × Nat :=
  batch.foldl (fun acc n => (acc.1 + 1, acc.2 + n.relationships.length)) (0, 0)

/-- The `(nodes_created, relationships_created)` totals returned by
`Neo4jIngester.ingest`. -/
def neo4j_ingest_counts (nodes : List StructuralNode) (batch_size : Nat) :
    Nat × Nat :=
  (chunksOf batch_size nodes).foldl
    (fun acc batch =>
      let r := create_nodes_batch_counts batch
      (acc.1 + r.1, acc.2 + r.2)) (0, 0)

/-- Total relationship entries across a node list. -/
def sumRels (nodes : List StructuralNode) : Nat :=
  (nodes.map (fun n => n.relationships.length)).sum

/-- Execute runs on a plain session: each `session.run` commits on its own,
so on the first failing run the exception propagates but every earlier
run's write stays visible. -/
def runAutoCommit (failAt : Nat → Bool) :
    List CypherRun → Nat → GraphState → GraphState × Bool
  | [], _, st => (st, true)
  | r :: rest, i, st =>
      if failAt i then (st, false)
      else runAutoCommit failAt rest (i + 1) (applyRun r st)

/-- Visible store state after `Neo4jIngester.ingest` (second component:
whether all statements succeeded). -/
def neo4j_ingest_visible (failAt : Nat → Bool) (nodes : List StructuralNode)
    (batch_size : Nat) (st : GraphState) : GraphState × Bool :=
  runAutoCommit failAt (ingestRuns nodes batch_size) 0 st

/-- Repository data handed to `_store_repository_graph` (entries such as
file name/extension/size/content only populate `SET` properties, which the
node/relationship-count model does not track). -/
structure FileInfo where
  path : String
  deriving Repr, DecidableEq

structure RepoData where
  name : String
  directories : List String
  files : List FileInfo
  deriving Repr, DecidableEq

/-- Python `str(Path(p).parent)`. -/
def parentDir (p : String) : String :=
  match rfindChar '/' p.toList with
  | some i => String.mk (p.toList.take i)
  | none => "."

/-- The runs of `_create_files_batch_tx` for one batch: the `UNWIND` file
statement, then (when any file has a non-`.` parent) the directory-file
relationship statement of `_create_directory_relationships_batch_tx`. -/
def fileBatchRuns (repo : String) (batch : List FileInfo) : List CypherRun :=
  CypherRun.fileBatch repo (batch.map (·.path)) ::
    (let pairs := batch.filterMap (fun f =>
        let parent := parentDir f.path
        if parent == "." then none else some (parent, f.path))
     if pairs.isEmpty then [] else [CypherRun.dirRelBatch repo pairs])

/-- All `tx.run` calls of `_store_repository_graph`, in order: the
repository `MERGE`, the directory batches, then per file batch the file
statement and its relationship statement. -/
def repoRuns (rd : RepoData) (batch_size : Nat) : List CypherRun :=
  CypherRun.mergeRepo rd.name ::
    ((chunksOf batch_size rd.directories).map
        (fun b => CypherRun.dirBatch rd.name b) ++
      ((chunksOf batch_size rd.files).map (fileBatchRuns rd.name)).flatten)

/-- Execute runs inside one explicit transaction: `none` when any run
fails (nothing of the transaction is visible). -/
def runInTx (failAt : Nat → Bool) :
    List CypherRun → Nat → GraphState → Option GraphState
  | [], _, st => some st
  | r :: rest, i, st =>
      if failAt i then none
      else runInTx failAt rest (i + 1) (applyRun r st)

/-- Model of `_store_repository_graph`: all runs in one transaction; on any failure
the transaction is rolled back (the store keeps its prior state) and the
error is re-raised (second component `false`). -/
def store_repository_graph (failAt : Nat → Bool) (rd : RepoData)
    (batch_size : Nat) (st : GraphState) : GraphState × Bool :=
  match runInTx failAt (repoRuns rd batch_size) 0 st with
  | some st' => (st', true)
  | none => (st, false)

/-! ### Pipeline boundary (`pipeline.UnifiedIngestionPipeline`)

Filesystem tests and the combined effect of `extractor.extract` plus
`ingester.ingest` are abstract collaborators passed in explicitly; a raised
exception anywhere inside `_process_source`'s `try` block is an
`Except.error`. -/

inductive ContentType
  | github_repository | web_page | local_folder | local_file
  deriving Repr, DecidableEq

/-- Model of `ContentSource.__post_init__`: validate the identifier against its
kind's addressing scheme; a mismatch raises `ValueError` synchronously. -/
def validate_source (pathExists : String → Bool) (t : ContentType)
    (id : String) : Except String Unit :=
  match t with
  | .github_repository =>
      if id.startsWith "https://github.com/" || id.startsWith "git@github.com:"
      then .ok () else .error ("Invalid GitHub repository URL: " ++ id)
  | .web_page =>
      if id.startsWith "http://" || id.startsWith "https://"
      then .ok () else .error ("Invalid web URL: " ++ id)
  | .local_folder =>
      if pathExists id then .ok () else .error ("Path does not exist: " ++ id)
  | .local_file =>
      if pathExists id then .ok () else .error ("Path does not exist: " ++ id)

/-- Model of `UnifiedIngestionPipeline._detect_source_type`. -/
def detect_source_type (pathExists isFile isDir hasNetloc : String → Bool)
    (id : String) : ContentType :=
  if id.startsWith "https://github.com/" || id.startsWith "git@github.com:" ||
     id.startsWith "github.com/" then .github_repository
  else if id.startsWith "http://" || id.startsWith "https://" then .web_page
  else if pathExists id && isFile id then .local_file
  else if pathExists id && isDir id then .local_folder
  else if hasNetloc id then .web_page
  else .local_folder

/-- Result of the extract-then-ingest body of `_process_source` when it
does not raise. -/
structure PipeOutcome where
  chunks_extracted : Nat
  nodes_created : Nat
  relationships_created : Nat
  deriving Repr, DecidableEq

structure IngestionResult where
  success : Bool
  chunks_created : Nat
  nodes_created : Nat
  relationships_created : Nat
  errors : List String
  deriving Repr, DecidableEq

/-- Model of `UnifiedIngestionPipeline._process_source`: the whole body is wrapped in
`try/except Exception`; any failure becomes a failed `IngestionResult`
carrying the error string, and nothing is re-raised. -/
def process_source (outcome : Except String PipeOutcome) : IngestionResult :=
  match outcome with
  | .ok o =>
      { success := true
        chunks_created := o.chunks_extracted
        nodes_created := o.nodes_created
        relationships_created := o.relationships_created
        errors := [] }
  | .error e =>
      { success := false
        chunks_created := 0
        nodes_created := 0
        relationships_created := 0
        errors := [e] }

/-- The source type `ingest_source` works with: the explicit one when
given, the auto-detected one otherwise. -/
def resolved_type (pathExists isFile isDir hasNetloc : String → Bool)
    (id : String) (source_type : Option ContentType) : ContentType :=
  match source_type with
  | some t => t
  | none => detect_source_type pathExists isFile isDir hasNetloc id

/-- Model of `UnifiedIngestionPipeline.ingest_source`: when the pipeline is
not yet initialized, first `await self.initialize()` — `init` is the
combined effect of `UnifiedIngester.initialize`, whose Neo4j/Qdrant
initialization errors re-raise and escape raw; then resolve the source
type (auto-detect when not given), construct the `ContentSource` (whose
validation may raise to the caller), then run `_process_source`, which
never raises. -/
def ingest_source (initialized : Bool) (init : Except String Unit)
    (pathExists isFile isDir hasNetloc : String → Bool)
    (outcome : Except String PipeOutcome) (id : String)
    (source_type : Option ContentType) : Except String IngestionResult :=
  match (if initialized then Except.ok () else init) with
  | .error e => .error e
  | .ok _ =>
      match validate_source pathExists
          (resolved_type pathExists isFile isDir hasNetloc id source_type) id with
      | .error e => .error e
      | .ok _ => .ok (process_source outcome)

/-! ### Embedding batches (`src/utils/embedding_utils.py`)

The TEI server is an abstract collaborator `post : List Str → PostOutcome`
(modelled as a function of the request payload; the three `RequestError`
retries of the source therefore all see the same outcome, and the loop ends
in the zero-vector fallback).  Embedding vectors are lists of rationals;
only their lengths matter to the claims. -/

def MAX_TOKENS_PER_BATCH : Nat := 28000

def EMBEDDING_DIMENSION : Nat := 1024

/-- Model of `_estimate_tokens`: `len(text) // 4`. -/
def estimate_tokens (t : Str) : Nat := t.length / 4

/-- Outcome of one HTTP POST to the embedding server. -/
inductive PostOutcome
  /-- 2xx with a JSON list of embedding vectors. -/
  | ok (embs : List (List Rat))
  /-- Model of `raise_for_status` raises `HTTPStatusError` with this code. -/
  | status (code : Nat)
  /-- Model of `httpx.RequestError` (connection-level failure). -/
  | reqError

/-- Model of `_send_batch_request`: POST the batch; on 413 with a single text,
truncate it to 10000 characters and retry once (any failure of that retry
propagates); on 413 with several texts, split in half and recurse (failures
propagate); on any other `HTTPStatusError`, re-raise; on `RequestError`,
after the three attempts of the retry loop fall back to one zero vector of
`EMBEDDING_DIMENSION` per text.  The fuel is at least `batch.length` at
every call, which the split recursion never exhausts. -/
def send_batch_request (post : List Str → PostOutcome) (dim : Nat) :
    Nat → List Str → Except Unit (List (List Rat))
  | 0, _ => .error ()
  | fuel + 1, batch =>
      match post batch with
      | .ok embs => .ok embs
      | .status code =>
          if code = 413 then
            if batch.length = 1 then
              match post [(batch.headD []).take 10000] with
              | .ok e => .ok e
              | _ => .error ()
            else
              match send_batch_request post dim fuel
                  (batch.take (batch.length / 2)) with
              | .error e => .error e
              | .ok b1 =>
                  match send_batch_request post dim fuel
                      (batch.drop (batch.length / 2)) with
                  | .error e => .error e
                  | .ok b2 => .ok (b1 ++ b2)
          else .error ()
      | .reqError => .ok (batch.map (fun _ => List.replicate dim 0))

/-- The smart-batching loop of `create_embeddings_batch`: flush the current
batch when it is non-empty and either full (`max_batch_size`) or the new
text's estimated tokens would push it past `MAX_TOKENS_PER_BATCH`. -/
def buildBatchesGo (maxB : Nat) :
    List Str → List Str → Nat → List (List Str)
  | [], current, _ => if current.isEmpty then [] else [current]
  | t :: rest, current, currentTokens =>
      let est := estimate_tokens t
      if !current.isEmpty &&
         (decide (maxB ≤ current.length) ||
          decide (MAX_TOKENS_PER_BATCH < currentTokens + est)) then
        current :: buildBatchesGo maxB rest [t] est
      else buildBatchesGo maxB rest (current ++ [t]) (currentTokens + est)

def build_batches (texts : List Str) (maxB : Nat) : List (List Str) :=
  buildBatchesGo maxB texts [] 0

/-- Model of `create_embeddings_batch`: split `texts` into batches, send every batch
(concurrently in the source; order of the flattened results is the batch
order), and replace the result of a batch whose request raised by one zero
vector of `EMBEDDING_DIMENSION` per text of that batch.  The function
itself never raises. -/
def create_embeddings_batch (post : List Str → PostOutcome) (dim : Nat)
    (maxB : Nat) (texts : List Str) : List (List Rat) :=
  if texts.isEmpty then []
  else
    ((build_batches texts maxB).map (fun b =>
      match send_batch_request post dim (b.length + 1) b with
      | .ok r => r
      | .error _ => b.map (fun _ => List.replicate dim 0))).flatten

/-! ### Performance monitor (`performance_monitor.PerformanceMonitor`)

Only the per-name aggregated sample lists and the statistical summary are
modelled; metric values are rationals.  `record_metric` is applied to a
call history (list of `(name, value)` pairs, oldest first). -/

/-- Effect of one `record_metric` call on one name's aggregated list:
append, then keep only the last 1000 values (`[-1000:]`). -/
def record_values (l : List Rat) (v : Rat) : List Rat :=
  let l' := l ++ [v]
  if 1000 < l'.length then l'.drop (l'.length - 1000) else l'

/-- The aggregated sample list of `name` after a history of
`record_metric` calls. -/
def agg_after (calls : List (String × Rat)) (name : String) : List Rat :=
  calls.foldl (fun acc c => if c.1 == name then record_values acc c.2 else acc) []

/-- Every value ever recorded for `name`, oldest first. -/
def values_of (calls : List (String × Rat)) (name : String) : List Rat :=
  calls.filterMap (fun c => if c.1 == name then some c.2 else none)

/-- Python `l[-n:]`. -/
def lastN (n : Nat) (l : List α) : List α := l.drop (l.length - n)

/-- Model of `PerformanceMonitor._percentile` over the sorted values, with linear
interpolation at `k = (n-1) * p / 100`. -/
def percentile (values : List Rat) (p : Rat) : Rat :=
  if values.isEmpty then 0
  else
    let sorted := values.mergeSort (fun a b => decide (a ≤ b))
    let k : Rat := ((sorted.length - 1 : Nat) : Rat) * p / 100
    let f : Nat := k.floor.toNat
    let c : Rat := k - (f : Rat)
    if f == sorted.length - 1 then sorted.getD f 0
    else sorted.getD f 0 * (1 - c) + sorted.getD (f + 1) 0 * c

/-- Model of `statistics.mean`. -/
def listMean (values : List Rat) : Rat := values.sum / (values.length : Rat)

/-- Model of `statistics.median` (average of the two middle values when even). -/
def listMedian (values : List Rat) : Rat :=
  let sorted := values.mergeSort (fun a b => decide (a ≤ b))
  let n := sorted.length
  if n % 2 == 1 then sorted.getD (n / 2) 0
  else (sorted.getD (n / 2 - 1) 0 + sorted.getD (n / 2) 0) / 2

/-- Model of `statistics.stdev` squared (the sample variance, with the source's
`len > 1` guard); the source's `std_dev` is the square root of this, which
has no exact rational representation and is tracked here squared. -/
def listVariance (values : List Rat) : Rat :=
  if 1 < values.length then
    let m := listMean values
    (values.map (fun x => (x - m) ^ 2)).sum / ((values.length - 1 : Nat) : Rat)
  else 0

structure MetricSummary where
  count : Nat
  mean : Rat
  median : Rat
  minV : Rat
  maxV : Rat
  std_dev_sq : Rat
  p95 : Rat
  p99 : Rat
  deriving Repr, DecidableEq

/-- Model of `PerformanceMonitor.get_metric_summary` computed from one aggregated
sample list (an absent name yields the empty list and a `count`-0 summary). -/
def get_metric_summary (values : List Rat) : MetricSummary :=
  if values.isEmpty then
    { count := 0, mean := 0, median := 0, minV := 0, maxV := 0
      std_dev_sq := 0, p95 := 0, p99 := 0 }
  else
    { count := values.length
      mean := listMean values
      median := listMedian values
      minV := values.foldl min (values.headD 0)
      maxV := values.foldl max (values.headD 0)
      std_dev_sq := listVariance values
      p95 := percentile values 95
      p99 := percentile values 99 }

/-! ### Concrete inputs used by witnesses -/

def c2ChunkA : ContentChunk :=
  { chunk_id := [], content := "print(1)".toList, content_format := .code
    source_path := "a.py".toList, metadata := [], embedding := none }

/-- Same format, path and content prefix as `c2ChunkA`, different metadata. -/
def c2ChunkB : ContentChunk :=
  { chunk_id := [], content := "print(1)".toList, content_format := .code
    source_path := "a.py".toList, metadata := [("k", "v".toList)]
    embedding := none }

def c2Chunk : ContentChunk :=
  { chunk_id := "code_x".toList, content := "t".toList
    content_format := .code, source_path := "a.py".toList
    metadata := [], embedding := some [1, 2] }

def c2Point : Point :=
  { id := pymod 7 (2 ^ 63), vector := [1, 2]
    payload_content := "t".toList
    payload_content_format := ContentFormat.code.value
    payload_source_path := "a.py".toList
    payload_chunk_id := "code_x".toList }

/-- Two structural nodes, the first with one relationship entry whose
target id matches no node. -/
def c1Nodes : List StructuralNode :=
  [{ node_type := "File", node_id := "f1", properties := []
     relationships := [{ rel_type := "CONTAINS", target := "missing"
                         properties := [] }] },
   { node_type := "File", node_id := "f2", properties := []
     relationships := [] }]

def c1Repo : RepoData :=
  { name := "repo", directories := ["src"], files := [{ path := "src/a.py" }] }

def c3Table : List Row := [[("n", 1)], [("n", 2)], [("n", 3)]]

/-- A consistent session for the data query `MATCH (n) RETURN n` over
`c3Table` with page size 2: the data query returns the first page slice,
the derived count query returns the table size. -/
def c3Run : Sess := fun q _ =>
  if q = "MATCH (n) RETURN n".toList then .ok [[("n", 1)], [("n", 2)]]
  else .ok [[("count", 3)]]

/-- An embedding provider that answers every batch with one singleton
vector per text. -/
def c6Post : List Str → PostOutcome := fun b => .ok (b.map (fun _ => [1]))

/-- A provider that rejects every multi-text batch as oversized and
accepts single texts. -/
def c6SplitPost : List Str → PostOutcome := fun b =>
  if 2 ≤ b.length then .status 413 else .ok [[3]]

/-- A provider that rejects any request whose first text is longer than
10000 characters and accepts shorter ones. -/
def c6TruncPost : List Str → PostOutcome := fun b =>
  if 10001 ≤ (b.headD []).length then .status 413 else .ok [[5]]

def c6LongText : Str := List.replicate 10001 'x'

/-! ## Theorems -/

set_option maxRecDepth 100000

/-- Claim C4: the count-query rewrite maps the pager query
`MATCH (f) RETURN f.path as path ORDER BY f.path SKIP 10 LIMIT 20` to a
query with no ORDER BY, SKIP or LIMIT whose return clause is
`RETURN COUNT(*) as count`; maps a `RETURN DISTINCT` query to one returning
`RETURN COUNT(DISTINCT *) as count`; and raises an error for every query
without a RETURN clause. -/
theorem claim_C4_count_rewrite :
    (convert_to_count_query
        "MATCH (f) RETURN f.path as path ORDER BY f.path SKIP 10 LIMIT 20".toList
      = .ok "MATCH (f) RETURN COUNT(*) as count".toList
      ∧ containsSeqCI "ORDER".toList "MATCH (f) RETURN COUNT(*) as count".toList = false
      ∧ containsSeqCI "SKIP".toList "MATCH (f) RETURN COUNT(*) as count".toList = false
      ∧ containsSeqCI "LIMIT".toList "MATCH (f) RETURN COUNT(*) as count".toList = false)
    ∧ convert_to_count_query "MATCH (f) RETURN DISTINCT f.type".toList
      = .ok "MATCH (f) RETURN COUNT(DISTINCT *) as count".toList
    ∧ ∀ q : Str, containsWordCI "RETURN".toList (preprocess_query q) = false →
        ∃ e, convert_to_count_query q = .error e := by
  refine ⟨by decide, by decide, ?_⟩
  intro q hq
  refine ⟨"Query must contain a RETURN clause to convert to count query".toList, ?_⟩
  simp [convert_to_count_query, hq]
  exact hq

/-- Witness for claim C4: a concrete query without a RETURN clause is
rejected by the count-query rewrite. -/
theorem claim_C4_count_rewrite_witness :
    containsWordCI "RETURN".toList (preprocess_query "MATCH (f)".toList) = false
    ∧ ∃ e, convert_to_count_query "MATCH (f)".toList = .error e :=
  ⟨by decide, claim_C4_count_rewrite.2.2 "MATCH (f)".toList (by decide)⟩

/-- Claim C9: the count-query rewrite strips only numeric-literal SKIP and
LIMIT clauses, so the count queries derived from the executor's own
convenience queries (which end in `SKIP $skip LIMIT $limit`) retain those
parameterized clauses; and when running the count query fails,
`_get_total_count` falls back to a total count of 0. -/
theorem claim_C9_parameterized_skip_limit :
    (convert_to_count_query repoFilesQuery
        = .ok "MATCH (r:Repository \x7bname: $repo_name\x7d)-[:CONTAINS]->(f:File) RETURN COUNT(*) as count SKIP $skip LIMIT $limit".toList
      ∧ containsSeq "SKIP $skip LIMIT $limit".toList
          "MATCH (r:Repository \x7bname: $repo_name\x7d)-[:CONTAINS]->(f:File) RETURN COUNT(*) as count SKIP $skip LIMIT $limit".toList = true)
    ∧ (convert_to_count_query repoFilesTypeQuery
        = .ok "MATCH (r:Repository \x7bname: $repo_name\x7d)-[:CONTAINS]->(f:File) WHERE f.type = $file_type RETURN COUNT(*) as count SKIP $skip LIMIT $limit".toList
      ∧ containsSeq "SKIP $skip LIMIT $limit".toList
          "MATCH (r:Repository \x7bname: $repo_name\x7d)-[:CONTAINS]->(f:File) WHERE f.type = $file_type RETURN COUNT(*) as count SKIP $skip LIMIT $limit".toList = true)
    ∧ (convert_to_count_query searchContentQuery
        = .ok "MATCH (f:File) WHERE f.content CONTAINS $search_term RETURN COUNT(*) as count SKIP $skip LIMIT $limit".toList
      ∧ containsSeq "SKIP $skip LIMIT $limit".toList
          "MATCH (f:File) WHERE f.content CONTAINS $search_term RETURN COUNT(*) as count SKIP $skip LIMIT $limit".toList = true)
    ∧ ∀ (run : Sess) (query : Str) (params : Params) (cq e : Str),
        convert_to_count_query query = .ok cq →
        run cq (countParams params) = .error e →
        get_total_count run query params = .ok 0 := by
  refine ⟨by decide, by decide, by decide, ?_⟩
  intro run query params cq e hconv hrun
  simp only [get_total_count, hconv, hrun]

/-- Witness for claim C9: with a session whose count query raises, the
total count falls back to 0. -/
theorem claim_C9_parameterized_skip_limit_witness :
    convert_to_count_query "MATCH (n) RETURN n".toList
      = .ok "MATCH (n) RETURN COUNT(*) as count".toList
    ∧ ((fun (_ : Str) (_ : Params) =>
          (.error "connection lost".toList : Except Str (List Row)))
        "MATCH (n) RETURN COUNT(*) as count".toList (countParams []))
      = .error "connection lost".toList
    ∧ get_total_count
        (fun _ _ => .error "connection lost".toList)
        "MATCH (n) RETURN n".toList [] = .ok 0 :=
  ⟨by decide, rfl,
    claim_C9_parameterized_skip_limit.2.2.2
      (fun _ _ => .error "connection lost".toList)
      "MATCH (n) RETURN n".toList []
      "MATCH (n) RETURN COUNT(*) as count".toList
      "connection lost".toList (by decide) rfl⟩

/-- Claim C9 (counterexample): not every query ending in the parameterized
form keeps it — when the trailing `SKIP $skip LIMIT $limit` is preceded by
a line-comment marker, comment stripping removes it and the derived count
query contains no SKIP or LIMIT clause at all. -/
theorem claim_C9_counterexample :
    ("MATCH (n) RETURN n // SKIP $skip LIMIT $limit".toList
        = "MATCH (n) RETURN n // ".toList ++ "SKIP $skip LIMIT $limit".toList)
    ∧ convert_to_count_query "MATCH (n) RETURN n // SKIP $skip LIMIT $limit".toList
        = .ok "MATCH (n) RETURN COUNT(*) as count".toList
    ∧ containsSeq "SKIP $skip LIMIT $limit".toList
        "MATCH (n) RETURN COUNT(*) as count".toList = false
    ∧ containsSeqCI "SKIP".toList "MATCH (n) RETURN COUNT(*) as count".toList
        = false := by
  refine ⟨by decide, by decide, by decide, by decide⟩

/-- Claim C2 (counterexample): the identity of the point upserted into the
vector store is not the deterministic chunk id itself — the point id is
Python's builtin hash of the chunk id reduced modulo 2^63, a map under
which distinct chunk ids need not stay distinct. -/
theorem claim_C2_counterexample :
    ¬ (∀ (h : Str → Int) (c₁ c₂ : Str),
        point_id h c₁ = point_id h c₂ → c₁ = c₂) := by
  intro hcl
  have h := hcl (fun _ => 0) "a".toList "b".toList rfl
  simp at h

/-- Claim C2 (amended): the chunk id computed by
`ContentChunk.__post_init__` is a deterministic function of the content
format, the source path, and the first 100 characters of the content; each
point upserted by `_ingest_chunks_batch` carries the builtin hash of that
chunk id modulo 2^63 as its id (a value in `[0, 2^63)`, not the chunk id
itself), while the chunk id is stored in the point payload. -/
theorem claim_C2_amended :
    (∀ c₁ c₂ : ContentChunk, c₁.chunk_id = [] → c₂.chunk_id = [] →
        c₁.content_format = c₂.content_format →
        c₁.source_path = c₂.source_path →
        c₁.content.take 100 = c₂.content.take 100 →
        (post_init_chunk c₁).chunk_id = (post_init_chunk c₂).chunk_id)
    ∧ ∀ (h : Str → Int) (chunks : List ContentChunk) (p : Point),
        p ∈ ingest_chunks_batch h chunks →
        ∃ c ∈ chunks, c.embedding = some p.vector ∧
          p.id = point_id h c.chunk_id ∧
          p.payload_chunk_id = c.chunk_id ∧
          0 ≤ p.id ∧ p.id < 2 ^ 63 := by
  constructor
  · intro c₁ c₂ h1 h2 hf hp hc
    simp only [post_init_chunk, h1, h2, List.isEmpty_nil, if_pos]
    simp [hf, hp, hc]
  · intro h chunks p hp
    rw [ingest_chunks_batch, List.mem_filterMap] at hp
    obtain ⟨c, hc, heq⟩ := hp
    refine ⟨c, hc, ?_⟩
    cases hemb : c.embedding with
    | none => rw [hemb] at heq; simp at heq
    | some v =>
        rw [hemb] at heq
        simp only [Option.some.injEq] at heq
        subst heq
        refine ⟨rfl, rfl, rfl, ?_, ?_⟩
        · exact Int.emod_nonneg _ (by decide)
        · exact Int.emod_lt_of_pos _ (by decide)

/-- Witness for claim C2 (amended): two chunks sharing format, path and the
first 100 content characters receive the same generated chunk id, and a
concrete chunk with an embedding becomes a point carrying its chunk id in
the payload and the reduced hash as id. -/
theorem claim_C2_amended_witness :
    (post_init_chunk c2ChunkA).chunk_id = (post_init_chunk c2ChunkB).chunk_id
    ∧ ∃ c ∈ [c2Chunk],
        c.embedding = some c2Point.vector ∧
        c2Point.id = point_id (fun _ => 7) c.chunk_id ∧
        c2Point.payload_chunk_id = c.chunk_id ∧
        0 ≤ c2Point.id ∧ c2Point.id < 2 ^ 63 :=
  ⟨claim_C2_amended.1 c2ChunkA c2ChunkB rfl rfl rfl rfl rfl,
    claim_C2_amended.2 (fun _ => 7) [c2Chunk] c2Point (by decide)⟩

/-- Claim C3: for a 1-indexed page `p` against a store that consistently
answers the data query with the `SKIP/LIMIT` slice of a result set and the
derived count query with that result set's size, `execute_paginated_query`
reports `has_next` true exactly when `p * page_size < total_count`. -/
theorem claim_C3_has_next (run : Sess) (query : Str) (params : Params)
    (page page_size : Nat) (tbl : List Row)
    (hpage : 1 ≤ page)
    (hrun : run query
        (setParam (setParam params "skip" (((page - 1) * page_size : Nat) : Int))
          "limit" (page_size : Int))
      = .ok ((tbl.drop ((page - 1) * page_size)).take page_size))
    (hcnt : get_total_count run query
        (setParam (setParam params "skip" (((page - 1) * page_size : Nat) : Int))
          "limit" (page_size : Int))
      = .ok (tbl.length : Int)) :
    ∃ r, execute_paginated_query run query params page page_size = .ok r ∧
      r.total_count = (tbl.length : Int) ∧
      (r.has_next = true ↔ page * page_size < tbl.length) := by
  refine ⟨{ data := (tbl.drop ((page - 1) * page_size)).take page_size
            total_count := (tbl.length : Int)
            page := page
            page_size := page_size
            has_next := decide
              ((((page - 1) * page_size : Nat) : Int) +
                (((tbl.drop ((page - 1) * page_size)).take page_size).length : Int)
                < (tbl.length : Int)) }, ?_, rfl, ?_⟩
  · simp only [execute_paginated_query, hrun, hcnt]
  · rw [decide_eq_true_iff]
    rw [List.length_take, List.length_drop]
    have hmul : page * page_size = (page - 1) * page_size + page_size := by
      cases page with
      | zero => omega
      | succ p => simp [Nat.succ_sub_one, Nat.succ_mul]
    constructor
    · intro h
      have h' : (page - 1) * page_size +
          min page_size (tbl.length - (page - 1) * page_size) < tbl.length := by
        exact_mod_cast h
      omega
    · intro h
      have h' : (page - 1) * page_size +
          min page_size (tbl.length - (page - 1) * page_size) < tbl.length := by
        omega
      exact_mod_cast h'

/-! Supporting lemmas for the content splitter. -/

theorem length_dropWhile_le' {α : Type _} (p : α → Bool) (l : List α) :
    (l.dropWhile p).length ≤ l.length := by
  induction l with
  | nil => simp
  | cons c rest ih =>
      rw [List.dropWhile]
      by_cases h : p c
      · simp only [h]
        exact Nat.le_succ_of_le ih
      · simp [h]

theorem rfindChar_get (c : Char) :
    ∀ (l : Str) (i : Nat), rfindChar c l = some i → l[i]? = some c := by
  intro l
  induction l with
  | nil => intro i h; simp [rfindChar] at h
  | cons d rest ih =>
      intro i h
      rw [rfindChar] at h
      cases hr : rfindChar c rest with
      | some j =>
          rw [hr] at h
          simp only [Option.some.injEq] at h
          subst h
          simpa using ih j hr
      | none =>
          rw [hr] at h
          by_cases hd : d == c
          · simp only [hd, if_pos] at h
            simp only [Option.some.injEq] at h
            subst h
            simp [eq_of_beq hd]
          · simp [hd] at h

theorem rfindChar_lt (c : Char) :
    ∀ (l : Str) (i : Nat), rfindChar c l = some i → i < l.length := by
  intro l
  induction l with
  | nil => intro i h; simp [rfindChar] at h
  | cons d rest ih =>
      intro i h
      rw [rfindChar] at h
      cases hr : rfindChar c rest with
      | some j =>
          rw [hr] at h
          simp only [Option.some.injEq] at h
          subst h
          simpa [Nat.succ_lt_succ_iff] using ih j hr
      | none =>
          rw [hr] at h
          by_cases hd : d == c
          · simp only [hd, if_pos] at h
            simp only [Option.some.injEq] at h
            subst h
            simp
          · simp [hd] at h

theorem pyStrip_length_le (s : Str) : (pyStrip s).length ≤ s.length := by
  unfold pyStrip
  calc ((s.dropWhile isSpaceChar).reverse.dropWhile isSpaceChar).reverse.length
      = ((s.dropWhile isSpaceChar).reverse.dropWhile isSpaceChar).length := by
        rw [List.length_reverse]
    _ ≤ (s.dropWhile isSpaceChar).reverse.length := length_dropWhile_le' _ _
    _ = (s.dropWhile isSpaceChar).length := by rw [List.length_reverse]
    _ ≤ s.length := length_dropWhile_le' _ _

theorem pySlice_length_le (content : Str) (s e : Nat) :
    (pySlice content s e).length ≤ e - s := by
  unfold pySlice
  simp only [List.length_take]
  omega

theorem chunkStep_eq_untrunc_far (content : Str) (start : Nat)
    (h : ¬ start + 1000 < content.length) :
    chunkStep content start = start + 1000 := by
  unfold chunkStep
  rw [if_neg h]

theorem chunkStep_eq_none (content : Str) (start : Nat)
    (h : start + 1000 < content.length)
    (hr : rfindChar ' ' (pySlice content start (start + 1000)) = none) :
    chunkStep content start = start + 1000 := by
  unfold chunkStep
  rw [if_pos h, hr]

theorem chunkStep_eq_small (content : Str) (start ls : Nat)
    (h : start + 1000 < content.length)
    (hr : rfindChar ' ' (pySlice content start (start + 1000)) = some ls)
    (hls : ¬ start + 500 < ls) :
    chunkStep content start = start + 1000 := by
  unfold chunkStep
  rw [if_pos h, hr]
  show (if start + 500 < ls then start + ls else start + 1000) = start + 1000
  rw [if_neg hls]

theorem chunkStep_eq_trunc (content : Str) (start ls : Nat)
    (h : start + 1000 < content.length)
    (hr : rfindChar ' ' (pySlice content start (start + 1000)) = some ls)
    (hls : start + 500 < ls) :
    chunkStep content start = start + ls := by
  unfold chunkStep
  rw [if_pos h, hr]
  show (if start + 500 < ls then start + ls else start + 1000) = start + ls
  rw [if_pos hls]

theorem chunkStep_lb (content : Str) (start : Nat) :
    start + 501 ≤ chunkStep content start := by
  by_cases h : start + 1000 < content.length
  · cases hr : rfindChar ' ' (pySlice content start (start + 1000)) with
    | some ls =>
        by_cases hls : start + 500 < ls
        · rw [chunkStep_eq_trunc content start ls h hr hls]; omega
        · rw [chunkStep_eq_small content start ls h hr hls]; omega
    | none => rw [chunkStep_eq_none content start h hr]; omega
  · rw [chunkStep_eq_untrunc_far content start h]; omega

theorem chunkStep_ub (content : Str) (start : Nat) :
    chunkStep content start ≤ start + 1000 := by
  by_cases h : start + 1000 < content.length
  · cases hr : rfindChar ' ' (pySlice content start (start + 1000)) with
    | some ls =>
        have hlt := rfindChar_lt ' ' _ _ hr
        have hsl := pySlice_length_le content start (start + 1000)
        by_cases hls : start + 500 < ls
        · rw [chunkStep_eq_trunc content start ls h hr hls]; omega
        · rw [chunkStep_eq_small content start ls h hr hls]
    | none => rw [chunkStep_eq_none content start h hr]
  · rw [chunkStep_eq_untrunc_far content start h]

theorem chunkStep_space (content : Str) (start : Nat)
    (h : chunkStep content start < start + 1000) :
    content[chunkStep content start]? = some ' ' := by
  by_cases hlen : start + 1000 < content.length
  · cases hr : rfindChar ' ' (pySlice content start (start + 1000)) with
    | some ls =>
        by_cases hls : start + 500 < ls
        · rw [chunkStep_eq_trunc content start ls hlen hr hls]
          have hget := rfindChar_get ' ' _ _ hr
          have hlt := rfindChar_lt ' ' _ _ hr
          have hsl := pySlice_length_le content start (start + 1000)
          unfold pySlice at hget
          rw [List.getElem?_take] at hget
          rw [if_pos (by omega)] at hget
          rw [List.getElem?_drop] at hget
          exact hget
        · exfalso
          rw [chunkStep_eq_small content start ls hlen hr hls] at h
          omega
    | none =>
        exfalso
        rw [chunkStep_eq_none content start hlen hr] at h
        omega
  · exfalso
    rw [chunkStep_eq_untrunc_far content start hlen] at h
    omega

theorem chunkGo_eq_map (content : Str) :
    ∀ (fuel start : Nat),
      chunkGo content fuel start =
        (chunkWindowsGo content fuel start).map
          (fun w => pyStrip (pySlice content w.1 w.2)) := by
  intro fuel
  induction fuel with
  | zero => intro start; rfl
  | succ f ih =>
      intro start
      rw [chunkGo, chunkWindowsGo]
      by_cases h : start < content.length
      · rw [if_pos h, if_pos h]
        simp only [List.map_cons]
        rw [ih]
      · rw [if_neg h, if_neg h]
        rfl

theorem chunkWindowsGo_mem (content : Str) :
    ∀ (fuel start : Nat) (w : Nat × Nat),
      w ∈ chunkWindowsGo content fuel start → w.2 = chunkStep content w.1 := by
  intro fuel
  induction fuel with
  | zero => intro start w h; simp [chunkWindowsGo] at h
  | succ f ih =>
      intro start w h
      rw [chunkWindowsGo] at h
      by_cases hs : start < content.length
      · rw [if_pos hs] at h
        rcases List.mem_cons.mp h with h1 | h2
        · rw [h1]
        · exact ih _ w h2
      · rw [if_neg hs] at h
        simp at h

theorem chunkWindowsGo_head (content : Str) (fuel start : Nat) (w : Nat × Nat)
    (h : (chunkWindowsGo content fuel start).head? = some w) : w.1 = start := by
  cases fuel with
  | zero => simp [chunkWindowsGo] at h
  | succ f =>
      rw [chunkWindowsGo] at h
      by_cases hs : start < content.length
      · rw [if_pos hs] at h
        simp only [List.head?_cons, Option.some.injEq] at h
        rw [← h]
      · rw [if_neg hs] at h
        simp at h

theorem chunkWindowsGo_chain (content : Str) :
    ∀ (fuel start : Nat),
      List.Chain' (fun a b : Nat × Nat => b.1 = a.2 - 100)
        (chunkWindowsGo content fuel start) := by
  intro fuel
  induction fuel with
  | zero => intro start; simp [chunkWindowsGo]
  | succ f ih =>
      intro start
      rw [chunkWindowsGo]
      by_cases hs : start < content.length
      · rw [if_pos hs]
        rw [List.chain'_cons']
        constructor
        · intro b hb
          have := chunkWindowsGo_head content f (chunkStep content start - 100) b hb
          rw [this]
        · exact ih _
      · rw [if_neg hs]
        simp

theorem chunkGo_stable (content : Str) :
    ∀ (f₁ f₂ start : Nat),
      content.length ≤ start + f₁ → content.length ≤ start + f₂ →
      chunkGo content f₁ start = chunkGo content f₂ start := by
  intro f₁
  induction f₁ with
  | zero =>
      intro f₂ start h1 h2
      cases f₂ with
      | zero => rfl
      | succ g =>
          rw [chunkGo, chunkGo]
          rw [if_neg (by omega)]
  | succ g ih =>
      intro f₂ start h1 h2
      cases f₂ with
      | zero =>
          rw [chunkGo, chunkGo]
          rw [if_neg (by omega)]
      | succ g₂ =>
          rw [chunkGo, chunkGo]
          by_cases hs : start < content.length
          · rw [if_pos hs, if_pos hs]
            show pyStrip (pySlice content start (chunkStep content start)) ::
                chunkGo content g (chunkStep content start - 100) =
              pyStrip (pySlice content start (chunkStep content start)) ::
                chunkGo content g₂ (chunkStep content start - 100)
            have hlb := chunkStep_lb content start
            congr 1
            exact ih g₂ (chunkStep content start - 100) (by omega) (by omega)
          · rw [if_neg hs, if_neg hs]

/-- Claim C7: with the default window of 1000 characters and overlap of
100 the splitter terminates (any fuel of at least `length + 1` computes the
same chunk list); an input of at most 1000 characters yields exactly one
chunk equal to the input; every chunk is at most 1000 characters; the
chunks are the (stripped) window slices; each successive window starts 100
characters before the previous window's end; and every window is at most
1000 characters, ending at a space (word boundary) whenever it was cut
short. -/
theorem claim_C7_chunking (content : Str) :
    (content.length ≤ 1000 → chunk_content content = [content])
    ∧ (∀ c ∈ chunk_content content, c.length ≤ 1000)
    ∧ (1000 < content.length →
        chunk_content content =
          (chunkWindows content).map (fun w => pyStrip (pySlice content w.1 w.2)))
    ∧ List.Chain' (fun a b : Nat × Nat => b.1 = a.2 - 100) (chunkWindows content)
    ∧ (∀ w ∈ chunkWindows content,
        w.2 ≤ w.1 + 1000 ∧ (w.2 < w.1 + 1000 → content[w.2]? = some ' '))
    ∧ ∀ f, content.length + 1 ≤ f →
        chunkGo content f 0 = chunkGo content (content.length + 1) 0 := by
  refine ⟨?_, ?_, ?_, ?_, ?_, ?_⟩
  · intro h
    unfold chunk_content
    rw [if_pos h]
  · intro c hc
    unfold chunk_content at hc
    by_cases h : content.length ≤ 1000
    · rw [if_pos h] at hc
      simp only [List.mem_singleton] at hc
      rw [hc]
      exact h
    · rw [if_neg h] at hc
      rw [chunkGo_eq_map] at hc
      rcases List.mem_map.mp hc with ⟨w, hw, hcw⟩
      have hstep := chunkWindowsGo_mem content _ _ w hw
      have hub := chunkStep_ub content w.1
      rw [← hcw]
      calc (pyStrip (pySlice content w.1 w.2)).length
          ≤ (pySlice content w.1 w.2).length := pyStrip_length_le _
        _ ≤ w.2 - w.1 := pySlice_length_le _ _ _
        _ ≤ 1000 := by omega
  · intro h
    unfold chunk_content chunkWindows
    rw [if_neg (by omega)]
    exact chunkGo_eq_map content _ 0
  · exact chunkWindowsGo_chain content _ 0
  · intro w hw
    have hstep := chunkWindowsGo_mem content _ _ w hw
    have hub := chunkStep_ub content w.1
    refine ⟨by omega, ?_⟩
    intro hlt
    rw [hstep]
    exact chunkStep_space content w.1 (by omega)
  · intro f hf
    exact chunkGo_stable content f (content.length + 1) 0 (by omega) (by omega)

/-- Witness for claim C7: a short input is returned whole; a 1500-character
input is split into the stripped window slices; extra fuel does not change
the result. -/
theorem claim_C7_chunking_witness :
    chunk_content "hello world".toList = ["hello world".toList]
    ∧ chunk_content (List.replicate 1500 'a') =
        (chunkWindows (List.replicate 1500 'a')).map
          (fun w => pyStrip (pySlice (List.replicate 1500 'a') w.1 w.2))
    ∧ chunkGo (List.replicate 1500 'a') 1600 0 =
        chunkGo (List.replicate 1500 'a') 1501 0 :=
  ⟨(claim_C7_chunking _).1 (by decide),
   (claim_C7_chunking _).2.2.1 (by decide),
   (claim_C7_chunking _).2.2.2.2.2 1600 (by simp)⟩

/-! Supporting lemmas for the graph-write claims. -/

theorem chunksOfAux_flatten {α : Type _} (b : Nat) (hb : 1 ≤ b) :
    ∀ (fuel : Nat) (l : List α), l.length < fuel →
      (chunksOfAux b fuel l).flatten = l := by
  intro fuel
  induction fuel with
  | zero => intro l h; omega
  | succ f ih =>
      intro l h
      cases l with
      | nil => rfl
      | cons x rest =>
          show ((x :: rest).take b :: chunksOfAux b f ((x :: rest).drop b)).flatten
            = x :: rest
          rw [List.flatten_cons]
          rw [ih ((x :: rest).drop b)
            (by simp only [List.length_drop, List.length_cons] at *; omega)]
          exact List.take_append_drop b (x :: rest)

theorem chunksOf_flatten {α : Type _} (b : Nat) (hb : 1 ≤ b) (l : List α) :
    (chunksOf b l).flatten = l :=
  chunksOfAux_flatten b hb (l.length + 1) l (by omega)

theorem create_nodes_batch_counts_eq (batch : List StructuralNode) :
    create_nodes_batch_counts batch = (batch.length, sumRels batch) := by
  unfold create_nodes_batch_counts sumRels
  suffices h : ∀ (a c : Nat),
      batch.foldl (fun acc n => (acc.1 + 1, acc.2 + n.relationships.length)) (a, c)
        = (a + batch.length, c + (batch.map (fun n => n.relationships.length)).sum) by
    simpa using h 0 0
  induction batch with
  | nil => intro a c; simp
  | cons n rest ih =>
      intro a c
      rw [List.foldl_cons]
      rw [ih]
      simp
      omega

theorem neo4j_ingest_counts_eq (nodes : List StructuralNode) (batch_size : Nat)
    (hb : 1 ≤ batch_size) :
    neo4j_ingest_counts nodes batch_size = (nodes.length, sumRels nodes) := by
  unfold neo4j_ingest_counts
  have key : ∀ (batches : List (List StructuralNode)) (a c : Nat),
      batches.foldl (fun acc batch =>
          let r := create_nodes_batch_counts batch
          (acc.1 + r.1, acc.2 + r.2)) (a, c)
        = (a + batches.flatten.length, c + sumRels batches.flatten) := by
    intro batches
    induction batches with
    | nil => intro a c; simp [sumRels]
    | cons batch rest ih =>
        intro a c
        rw [List.foldl_cons, ih]
        rw [create_nodes_batch_counts_eq]
        simp only [List.flatten_cons, List.length_append, Prod.mk.injEq]
        unfold sumRels
        simp only [List.map_append, List.sum_append]
        constructor <;> omega
  rw [key]
  rw [chunksOf_flatten batch_size hb nodes]
  simp

theorem runInTx_some (failAt : Nat → Bool) :
    ∀ (runs : List CypherRun) (i : Nat) (st st' : GraphState),
      runInTx failAt runs i st = some st' →
      st' = runs.foldl (fun s r => applyRun r s) st := by
  intro runs
  induction runs with
  | nil => intro i st st' h; simp [runInTx] at h; simp [h.symm]
  | cons r rest ih =>
      intro i st st' h
      rw [runInTx] at h
      by_cases hf : failAt i
      · rw [if_pos hf] at h; simp at h
      · rw [if_neg hf] at h
        rw [List.foldl_cons]
        exact ih (i + 1) (applyRun r st) st' h

theorem runAutoCommit_prefix (failAt : Nat → Bool) :
    ∀ (runs : List CypherRun) (i : Nat) (st : GraphState),
      ∃ k, k ≤ runs.length ∧
        (runAutoCommit failAt runs i st).1
          = (runs.take k).foldl (fun s r => applyRun r s) st ∧
        ((runAutoCommit failAt runs i st).2 = true → k = runs.length) := by
  intro runs
  induction runs with
  | nil => intro i st; exact ⟨0, by simp, by simp [runAutoCommit], by simp⟩
  | cons r rest ih =>
      intro i st
      rw [runAutoCommit]
      by_cases hf : failAt i
      · rw [if_pos hf]
        exact ⟨0, by simp, by simp, by simp⟩
      · rw [if_neg hf]
        obtain ⟨k, hk, h1, h2⟩ := ih (i + 1) (applyRun r st)
        refine ⟨k + 1, by simpa using Nat.succ_le_succ hk, ?_, ?_⟩
        · simp only [List.take_succ_cons, List.foldl_cons]
          exact h1
        · intro hs
          have := h2 hs
          simp only [List.length_cons]
          omega

/-- Claim C10: the counters returned by `Neo4jIngester.ingest` are exactly
the number of structural nodes and the total number of relationship entries
of the input — they count executed statements: a node `MERGE` that matched
an existing node leaves the store unchanged but is still counted, and a
relationship statement whose target id matches no node creates no
relationship but is still counted. -/
theorem claim_C10_ingest_counters (nodes : List StructuralNode)
    (batch_size : Nat) (hb : 1 ≤ batch_size) :
    neo4j_ingest_counts nodes batch_size = (nodes.length, sumRels nodes)
    ∧ (∀ (st : GraphState) (l i : String), (l, i) ∈ st.nodes →
        applyRun (CypherRun.mergeNode l i) st = st)
    ∧ (∀ (st : GraphState) (l i r t : String),
        (∀ n ∈ st.nodes, n.2 ≠ t) →
        applyRun (CypherRun.mergeRel l i r t) st = st) := by
  refine ⟨neo4j_ingest_counts_eq nodes batch_size hb, ?_, ?_⟩
  · intro st l i hmem
    show insertNode st (l, i) = st
    unfold insertNode
    rw [if_pos (show st.nodes.contains (l, i) = true from List.elem_iff.mpr hmem)]
  · intro st l i r t hne
    show (if st.nodes.contains (l, i) = true then
            match findNodeByKey st t with
            | some tgt => insertRel st ((l, i), r, tgt)
            | none => st
          else st) = st
    have hfind : findNodeByKey st t = none := by
      unfold findNodeByKey
      rw [List.find?_eq_none]
      intro x hx
      intro hbeq
      exact hne x hx (eq_of_beq hbeq)
    rw [hfind]
    by_cases hsrc : st.nodes.contains (l, i)
    · rw [if_pos hsrc]
    · rw [if_neg hsrc]

/-- Witness for claim C10: two nodes with one dangling relationship entry
are counted as two nodes and one relationship, a `MERGE` on an existing
node is a store no-op, and a relationship whose target is absent is a store
no-op. -/
theorem claim_C10_ingest_counters_witness :
    neo4j_ingest_counts c1Nodes 300 = (c1Nodes.length, sumRels c1Nodes)
    ∧ applyRun (CypherRun.mergeNode "File" "f1")
        { nodes := [("File", "f1")], rels := [] }
      = { nodes := [("File", "f1")], rels := [] }
    ∧ applyRun (CypherRun.mergeRel "File" "f1" "CONTAINS" "zzz")
        { nodes := [("File", "f1")], rels := [] }
      = { nodes := [("File", "f1")], rels := [] } :=
  ⟨(claim_C10_ingest_counters c1Nodes 300 (by decide)).1,
   (claim_C10_ingest_counters c1Nodes 300 (by decide)).2.1
     { nodes := [("File", "f1")], rels := [] } "File" "f1" (by decide),
   (claim_C10_ingest_counters c1Nodes 300 (by decide)).2.2
     { nodes := [("File", "f1")], rels := [] } "File" "f1" "CONTAINS" "zzz"
     (by decide)⟩

/-- Claim C1 (counterexample): on the `ProcessedContent` path
(`Neo4jIngester.ingest`) a failing statement does not undo earlier writes:
with two nodes and the second statement failing, the store still holds the
first node afterwards, so the count attributable to the source is not
zero. -/
theorem claim_C1_counterexample :
    ¬ (∀ (nodes : List StructuralNode) (failAt : Nat → Bool),
        (neo4j_ingest_visible failAt nodes 300 emptyGraph).2 = false →
        (neo4j_ingest_visible failAt nodes 300 emptyGraph).1.nodes = []) := by
  intro hcl
  exact absurd (hcl c1Nodes (fun i => i == 1) (by decide)) (by decide)

/-- Claim C1 (amended): only the repository-parse path
(`_store_repository_graph`) is transactional: it wraps all its batches in
one explicit transaction, so on any failure the store is exactly its prior
state (zero nodes/relationships attributable to the source) and on success
it is the sequential application of all runs.  The `ProcessedContent` path
(`Neo4jIngester.ingest`) auto-commits each statement: its visible state is
always the application of the successfully executed statement prefix, which
a later failure does not undo. -/
theorem claim_C1_amended :
    (∀ (failAt : Nat → Bool) (rd : RepoData) (bsize : Nat) (st : GraphState),
        (store_repository_graph failAt rd bsize st).2 = false →
        (store_repository_graph failAt rd bsize st).1 = st)
    ∧ (∀ (failAt : Nat → Bool) (rd : RepoData) (bsize : Nat) (st : GraphState),
        (store_repository_graph failAt rd bsize st).2 = true →
        (store_repository_graph failAt rd bsize st).1
          = (repoRuns rd bsize).foldl (fun s r => applyRun r s) st)
    ∧ ∀ (failAt : Nat → Bool) (nodes : List StructuralNode) (bsize : Nat)
        (st : GraphState),
        ∃ k, k ≤ (ingestRuns nodes bsize).length ∧
          (neo4j_ingest_visible failAt nodes bsize st).1
            = ((ingestRuns nodes bsize).take k).foldl (fun s r => applyRun r s) st ∧
          ((neo4j_ingest_visible failAt nodes bsize st).2 = true →
            k = (ingestRuns nodes bsize).length) := by
  refine ⟨?_, ?_, ?_⟩
  · intro failAt rd bsize st h
    unfold store_repository_graph at h ⊢
    cases htx : runInTx failAt (repoRuns rd bsize) 0 st with
    | some st' => rw [htx] at h; exact absurd h (by simp)
    | none => rfl
  · intro failAt rd bsize st h
    unfold store_repository_graph at h ⊢
    cases htx : runInTx failAt (repoRuns rd bsize) 0 st with
    | some st' => exact runInTx_some failAt _ 0 st st' htx
    | none => rw [htx] at h; exact absurd h (by simp)
  · intro failAt nodes bsize st
    exact runAutoCommit_prefix failAt (ingestRuns nodes bsize) 0 st

/-- Witness for claim C1 (amended): a repository ingestion whose second run
fails rolls back to the empty store; one whose runs all succeed applies
them all; the auto-commit path at a concrete failing input keeps the first
node (prefix length 1). -/
theorem claim_C1_amended_witness :
    (store_repository_graph (fun i => i == 1) c1Repo 300 emptyGraph).1 = emptyGraph
    ∧ (store_repository_graph (fun _ => false) c1Repo 300 emptyGraph).1
        = (repoRuns c1Repo 300).foldl (fun s r => applyRun r s) emptyGraph
    ∧ ∃ k, k ≤ (ingestRuns c1Nodes 300).length ∧
        (neo4j_ingest_visible (fun i => i == 1) c1Nodes 300 emptyGraph).1
          = ((ingestRuns c1Nodes 300).take k).foldl (fun s r => applyRun r s)
              emptyGraph ∧
        ((neo4j_ingest_visible (fun i => i == 1) c1Nodes 300 emptyGraph).2 = true →
          k = (ingestRuns c1Nodes 300).length) :=
  ⟨claim_C1_amended.1 (fun i => i == 1) c1Repo 300 emptyGraph (by decide),
   claim_C1_amended.2.1 (fun _ => false) c1Repo 300 emptyGraph (by decide),
   claim_C1_amended.2.2 (fun i => i == 1) c1Nodes 300 emptyGraph⟩

/-- Witness for claim C3: page 1 of size 2 over a 3-row table has a next
page, and the reported total count is 3. -/
theorem claim_C3_has_next_witness :
    ∃ r, execute_paginated_query c3Run "MATCH (n) RETURN n".toList [] 1 2 = .ok r ∧
      r.total_count = (c3Table.length : Int) ∧
      (r.has_next = true ↔ 1 * 2 < c3Table.length) :=
  claim_C3_has_next c3Run "MATCH (n) RETURN n".toList [] 1 2 c3Table
    (by decide) (by decide) (by decide)

/-- Claim C5 counterexample: on a not-yet-initialized pipeline, the lazy
`await self.initialize()` at the top of `ingest_source` runs first, and the
Neo4j/Qdrant initialization errors it re-raises escape to the caller raw —
even for a perfectly valid source, whose validation succeeds — refuting
"ingest_source never lets a raw exception escape to the caller except for
caller misuse (invalid configuration)". -/
theorem claim_C5_counterexample :
    (ingest_source false (.error "Failed to initialize Neo4j ingester: connection refused")
        (fun _ => true) (fun _ => false) (fun _ => true) (fun _ => false)
        (.ok ⟨0, 0, 0⟩) "/data" (some .local_folder)
      = .error "Failed to initialize Neo4j ingester: connection refused")
    ∧ validate_source (fun _ => true)
        (resolved_type (fun _ => true) (fun _ => false) (fun _ => true)
          (fun _ => false) "/data" (some .local_folder)) "/data"
      = .ok () :=
  ⟨by decide, by decide⟩

/-- Claim C5 amended: every error `ingest_source` lets escape is either a
lazy-initialization failure (only possible while the pipeline is not yet
initialized) or the synchronous `ContentSource` validation error for the
resolved source type; once initialization has succeeded (or is skipped)
and validation passes it always returns the structured result of
`_process_source`, which converts any processing failure into a failed
`IngestionResult` carrying the collected error string and never
re-raises. -/
theorem claim_C5_amended
    (initialized : Bool) (init : Except String Unit)
    (pathExists isFile isDir hasNetloc : String → Bool)
    (outcome : Except String PipeOutcome) (id : String)
    (source_type : Option ContentType) :
    (∀ e, ingest_source initialized init pathExists isFile isDir hasNetloc
        outcome id source_type = .error e →
      (initialized = false ∧ init = .error e) ∨
      validate_source pathExists
        (resolved_type pathExists isFile isDir hasNetloc id source_type) id
        = .error e)
    ∧ ((initialized = true ∨ init = .ok ()) →
      validate_source pathExists
        (resolved_type pathExists isFile isDir hasNetloc id source_type) id
        = .ok () →
      ingest_source initialized init pathExists isFile isDir hasNetloc
        outcome id source_type
        = .ok (process_source outcome))
    ∧ (∀ msg, process_source (.error msg) =
        { success := false, chunks_created := 0, nodes_created := 0
          relationships_created := 0, errors := [msg] })
    ∧ ∀ o, process_source (.ok o) =
        { success := true, chunks_created := o.chunks_extracted
          nodes_created := o.nodes_created
          relationships_created := o.relationships_created, errors := [] } := by
  refine ⟨?_, ?_, fun msg => rfl, fun o => rfl⟩
  · intro e he
    cases initialized with
    | true =>
        right
        have he' : (match validate_source pathExists
              (resolved_type pathExists isFile isDir hasNetloc id source_type) id with
            | Except.error e => (Except.error e : Except String IngestionResult)
            | Except.ok _ => Except.ok (process_source outcome)) = .error e := he
        cases hv : validate_source pathExists
            (resolved_type pathExists isFile isDir hasNetloc id source_type) id with
        | error e' =>
            rw [hv] at he'
            simp only [Except.error.injEq] at he'
            rw [he']
        | ok u =>
            rw [hv] at he'
            simp at he'
    | false =>
        have he' : (match init with
            | Except.error e => (Except.error e : Except String IngestionResult)
            | Except.ok _ =>
                match validate_source pathExists
                    (resolved_type pathExists isFile isDir hasNetloc id source_type) id with
                | Except.error e => Except.error e
                | Except.ok _ => Except.ok (process_source outcome)) = .error e := he
        cases hi : init with
        | error e0 =>
            left
            rw [hi] at he'
            have he2 : (Except.error e0 : Except String IngestionResult)
                = .error e := he'
            simp only [Except.error.injEq] at he2
            exact ⟨rfl, by rw [he2]⟩
        | ok u =>
            right
            rw [hi] at he'
            have he3 : (match validate_source pathExists
                  (resolved_type pathExists isFile isDir hasNetloc id source_type) id with
                | Except.error e => (Except.error e : Except String IngestionResult)
                | Except.ok _ => Except.ok (process_source outcome)) = .error e := he'
            cases hv : validate_source pathExists
                (resolved_type pathExists isFile isDir hasNetloc id source_type) id with
            | error e' =>
                rw [hv] at he3
                simp only [Except.error.injEq] at he3
                rw [he3]
            | ok u' =>
                rw [hv] at he3
                simp at he3
  · intro hinit hv
    cases initialized with
    | true =>
        show (match validate_source pathExists
              (resolved_type pathExists isFile isDir hasNetloc id source_type) id with
            | Except.error e => (Except.error e : Except String IngestionResult)
            | Except.ok _ => Except.ok (process_source outcome))
          = .ok (process_source outcome)
        rw [hv]
    | false =>
        rcases hinit with h | h
        · exact absurd h (by simp)
        · rw [h]
          show (match validate_source pathExists
                (resolved_type pathExists isFile isDir hasNetloc id source_type) id with
              | Except.error e => (Except.error e : Except String IngestionResult)
              | Except.ok _ => Except.ok (process_source outcome))
            = .ok (process_source outcome)
          rw [hv]

/-- Witness for the amended claim C5: on an initialized pipeline an invalid
GitHub identifier escapes as the validation error (the initialization
disjunct being impossible), a valid local-folder ingestion whose
processing fails returns the structured result, and that result is the
failed `IngestionResult` carrying the error string. -/
theorem claim_C5_amended_witness :
    ((true = false ∧ (Except.ok () : Except String Unit)
        = .error ("Invalid GitHub repository URL: " ++ "ftp://x")) ∨
      validate_source (fun _ => true)
        (resolved_type (fun _ => true) (fun _ => false) (fun _ => true)
          (fun _ => false) "ftp://x" (some .github_repository)) "ftp://x"
        = .error ("Invalid GitHub repository URL: " ++ "ftp://x"))
    ∧ (ingest_source true (.ok ()) (fun _ => true) (fun _ => false)
        (fun _ => true) (fun _ => false)
        (.error "boom") "/data" (some .local_folder)
        = .ok (process_source (.error "boom")))
    ∧ process_source (.error "boom") =
        { success := false, chunks_created := 0, nodes_created := 0
          relationships_created := 0, errors := ["boom"] } :=
  ⟨(claim_C5_amended true (.ok ()) (fun _ => true) (fun _ => false) (fun _ => true)
      (fun _ => false) (.ok ⟨0, 0, 0⟩) "ftp://x" (some .github_repository)).1
      ("Invalid GitHub repository URL: " ++ "ftp://x") (by decide),
   (claim_C5_amended true (.ok ()) (fun _ => true) (fun _ => false) (fun _ => true)
      (fun _ => false) (.error "boom") "/data" (some .local_folder)).2.1
      (Or.inl rfl) (by decide),
   (claim_C5_amended true (.ok ()) (fun _ => true) (fun _ => false) (fun _ => true)
      (fun _ => false) (.error "boom") "/data" (some .local_folder)).2.2.1 "boom"⟩

/-! Supporting lemmas for the embedding-batch claims. -/

theorem buildBatchesGo_flatten (maxB : Nat) :
    ∀ (texts current : List Str) (tok : Nat),
      (buildBatchesGo maxB texts current tok).flatten = current ++ texts := by
  intro texts
  induction texts with
  | nil =>
      intro current tok
      rw [buildBatchesGo]
      by_cases h : current.isEmpty
      · rw [if_pos h]
        simp [List.isEmpty_iff.mp h]
      · rw [if_neg h]
        simp
  | cons t rest ih =>
      intro current tok
      rw [buildBatchesGo]
      by_cases h : (!current.isEmpty &&
          (decide (maxB ≤ current.length) ||
           decide (MAX_TOKENS_PER_BATCH < tok + estimate_tokens t))) = true
      · rw [if_pos h]
        rw [List.flatten_cons, ih]
        simp
      · rw [if_neg h]
        rw [ih]
        simp

theorem build_batches_flatten (texts : List Str) (maxB : Nat) :
    (build_batches texts maxB).flatten = texts := by
  unfold build_batches
  rw [buildBatchesGo_flatten]
  rfl

theorem send_batch_request_length (post : List Str → PostOutcome) (dim : Nat)
    (hpost : ∀ b r, post b = .ok r → r.length = b.length) :
    ∀ (fuel : Nat) (batch : List Str) (r : List (List Rat)),
      send_batch_request post dim fuel batch = .ok r →
      r.length = batch.length := by
  intro fuel
  induction fuel with
  | zero => intro batch r h; simp [send_batch_request] at h
  | succ f ih =>
      intro batch r h
      rw [send_batch_request] at h
      split at h
      · rename_i embs hp
        simp only [Except.ok.injEq] at h
        rw [← h]
        exact hpost batch embs hp
      · rename_i code hp
        split at h
        · split at h
          · rename_i h413 h1
            split at h
            · rename_i e hq
              simp only [Except.ok.injEq] at h
              rw [← h]
              have hl := hpost _ _ hq
              simp only [List.length_singleton] at hl
              rw [hl, h1]
            · simp at h
          · rename_i h413 h1
            split at h
            · simp at h
            · rename_i b1 hb1
              split at h
              · simp at h
              · rename_i b2 hb2
                simp only [Except.ok.injEq] at h
                rw [← h, List.length_append, ih _ _ hb1, ih _ _ hb2,
                  List.length_take, List.length_drop]
                omega
        · simp at h
      · rename_i hp
        simp only [Except.ok.injEq] at h
        rw [← h]
        simp

theorem send_batch_request_splits (post : List Str → PostOutcome) (dim : Nat)
    (embOf : Str → List Rat)
    (hsplit : ∀ b : List Str, 2 ≤ b.length → post b = .status 413)
    (hsing : ∀ t, post [t] = .ok [embOf t]) :
    ∀ (fuel : Nat) (batch : List Str), batch.length ≤ fuel →
      1 ≤ batch.length →
      send_batch_request post dim fuel batch = .ok (batch.map embOf) := by
  intro fuel
  induction fuel with
  | zero => intro batch hf h1; omega
  | succ f ih =>
      intro batch hf h1
      by_cases h2 : 2 ≤ batch.length
      · rw [send_batch_request, hsplit batch h2]
        show (if (413 : Nat) = 413 then
                if batch.length = 1 then
                  match post [(batch.headD []).take 10000] with
                  | .ok e => (.ok e : Except Unit (List (List Rat)))
                  | _ => .error ()
                else
                  match send_batch_request post dim f
                      (batch.take (batch.length / 2)) with
                  | .error e => .error e
                  | .ok b1 =>
                      match send_batch_request post dim f
                          (batch.drop (batch.length / 2)) with
                      | .error e => .error e
                      | .ok b2 => .ok (b1 ++ b2)
              else .error ()) = .ok (batch.map embOf)
        rw [if_pos rfl, if_neg (by omega)]
        rw [ih (batch.take (batch.length / 2)) (by rw [List.length_take]; omega)
              (by rw [List.length_take]; omega)]
        rw [ih (batch.drop (batch.length / 2)) (by rw [List.length_drop]; omega)
              (by rw [List.length_drop]; omega)]
        show Except.ok ((batch.take (batch.length / 2)).map embOf ++
            (batch.drop (batch.length / 2)).map embOf) = .ok (batch.map embOf)
        rw [← List.map_append, List.take_append_drop]
      · have hlen : batch.length = 1 := by omega
        cases batch with
        | nil => simp at hlen
        | cons t rest =>
            have hrest : rest = [] := by
              simp only [List.length_cons] at hlen
              exact List.eq_nil_of_length_eq_zero (by omega)
            subst hrest
            rw [send_batch_request, hsing t]
            rfl

theorem create_embeddings_batch_all_fail (post : List Str → PostOutcome)
    (dim maxB : Nat) (texts : List Str)
    (hfail : ∀ b, post b = .status 500) :
    create_embeddings_batch post dim maxB texts =
      texts.map (fun _ => List.replicate dim 0) := by
  unfold create_embeddings_batch
  by_cases he : texts.isEmpty
  · rw [if_pos he]
    rw [List.isEmpty_iff.mp he]
    rfl
  · rw [if_neg he]
    have hsend : ∀ (b : List Str),
        (match send_batch_request post dim (b.length + 1) b with
         | .ok r => r
         | .error _ => b.map (fun _ => List.replicate dim 0))
          = b.map (fun _ => List.replicate dim 0) := by
      intro b
      rw [send_batch_request, hfail b]
      simp
    calc ((build_batches texts maxB).map (fun b =>
            match send_batch_request post dim (b.length + 1) b with
            | .ok r => r
            | .error _ => b.map (fun _ => List.replicate dim 0))).flatten
        = ((build_batches texts maxB).map (fun b =>
            b.map (fun _ => List.replicate dim 0))).flatten := by
          congr 1
          exact List.map_congr_left (fun b _ => hsend b)
      _ = texts.map (fun _ => List.replicate dim 0) := by
          rw [← List.map_flatten]
          rw [build_batches_flatten]

/-- Claim C6: `create_embeddings_batch` returns exactly one embedding per
input text, in input order (its batches partition the inputs in order); an
oversized-payload rejection (HTTP 413) is handled by splitting the batch
and retrying down to single texts, with single-text truncation to 10000
characters as a last resort; and a batch whose request ultimately fails
contributes one zero vector of the configured dimension per text instead of
raising. -/
theorem claim_C6_embedding_batches (post : List Str → PostOutcome)
    (dim maxB : Nat) (texts : List Str)
    (hpost : ∀ b r, post b = .ok r → r.length = b.length) :
    (create_embeddings_batch post dim maxB texts).length = texts.length
    ∧ (build_batches texts maxB).flatten = texts
    ∧ (∀ (post' : List Str → PostOutcome) (embOf : Str → List Rat),
        (∀ b : List Str, 2 ≤ b.length → post' b = .status 413) →
        (∀ t, post' [t] = .ok [embOf t]) →
        ∀ batch : List Str, 1 ≤ batch.length →
          send_batch_request post' dim (batch.length + 1) batch
            = .ok (batch.map embOf))
    ∧ (∀ (post' : List Str → PostOutcome) (t : Str) (v : List Rat) (fuel : Nat),
        post' [t] = .status 413 → post' [t.take 10000] = .ok [v] →
        send_batch_request post' dim (fuel + 1) [t] = .ok [v])
    ∧ ∀ (post' : List Str → PostOutcome), (∀ b, post' b = .status 500) →
        create_embeddings_batch post' dim maxB texts
          = texts.map (fun _ => List.replicate dim 0) := by
  refine ⟨?_, build_batches_flatten texts maxB, ?_, ?_, ?_⟩
  · unfold create_embeddings_batch
    by_cases he : texts.isEmpty
    · rw [if_pos he]
      rw [List.isEmpty_iff.mp he]
      rfl
    · rw [if_neg he]
      have hlen : ∀ (b : List Str),
          (match send_batch_request post dim (b.length + 1) b with
           | .ok r => r
           | .error _ => b.map (fun _ => List.replicate dim 0)).length
            = b.length := by
        intro b
        cases hs : send_batch_request post dim (b.length + 1) b with
        | ok r => exact send_batch_request_length post dim hpost _ _ _ hs
        | error e => simp
      rw [List.length_flatten, List.map_map]
      have hmaps : ((build_batches texts maxB).map (List.length ∘ fun b =>
            match send_batch_request post dim (b.length + 1) b with
            | .ok r => r
            | .error _ => b.map (fun _ => List.replicate dim 0)))
          = (build_batches texts maxB).map List.length :=
        List.map_congr_left (fun b _ => hlen b)
      rw [hmaps, ← List.length_flatten, build_batches_flatten]
  · intro post' embOf hsplit hsing batch h1
    exact send_batch_request_splits post' dim embOf hsplit hsing _ batch
      (by omega) h1
  · intro post' t v fuel h413 htrunc
    rw [send_batch_request, h413]
    simp [htrunc]
  · intro post' hfail
    exact create_embeddings_batch_all_fail post' dim maxB texts hfail

/-- Witness for claim C6: two texts produce two embeddings; a provider
that rejects multi-text batches is handled by splitting down to single
texts; a provider that rejects a 10001-character text accepts its
10000-character truncation; a provider that always fails yields one zero
vector per text. -/
theorem claim_C6_embedding_batches_witness :
    (create_embeddings_batch c6Post 2 64 ["a".toList, "b".toList]).length
      = (["a".toList, "b".toList] : List Str).length
    ∧ send_batch_request c6SplitPost 2 (["a".toList, "b".toList] : List Str).length.succ
        ["a".toList, "b".toList]
        = .ok ((["a".toList, "b".toList] : List Str).map (fun _ => [3]))
    ∧ send_batch_request c6TruncPost 2 1 [c6LongText] = .ok [[5]]
    ∧ create_embeddings_batch (fun _ => .status 500) 2 64 ["a".toList, "b".toList]
        = (["a".toList, "b".toList] : List Str).map
            (fun _ => List.replicate 2 0) := by
  have hpost : ∀ b r, c6Post b = .ok r → r.length = b.length := by
    intro b r h
    cases h
    simp
  have base := claim_C6_embedding_batches c6Post 2 64 ["a".toList, "b".toList] hpost
  refine ⟨base.1, ?_, ?_, ?_⟩
  · refine base.2.2.1 c6SplitPost (fun _ => [3]) ?_ ?_ _ (by decide)
    · intro b hb
      unfold c6SplitPost
      rw [if_pos hb]
    · intro t
      unfold c6SplitPost
      rw [if_neg (by simp)]
  · have hl : c6LongText.length = 10001 := List.length_replicate 10001 'x'
    refine base.2.2.2.1 c6TruncPost c6LongText [5] 0 ?_ ?_
    · unfold c6TruncPost
      rw [List.headD_cons, hl]
      rw [if_pos (by omega)]
    · have hlt : (c6LongText.take 10000).length = 10000 := by
        rw [List.length_take, hl]
        omega
      unfold c6TruncPost
      rw [List.headD_cons, hlt]
      rw [if_neg (by omega)]
  · exact base.2.2.2.2 (fun _ => .status 500) (fun _ => rfl)

/-! Supporting lemmas for the metrics claim. -/

theorem record_values_lastN (vs : List Rat) (v : Rat) :
    record_values (lastN 1000 vs) v = lastN 1000 (vs ++ [v]) := by
  unfold record_values lastN
  by_cases h : vs.length ≤ 999
  · have h0 : vs.length - 1000 = 0 := by omega
    rw [h0, List.drop_zero]
    rw [if_neg (by simp; omega)]
    have h1 : (vs ++ [v]).length - 1000 = 0 := by simp; omega
    rw [h1, List.drop_zero]
  · have hdlen : (vs.drop (vs.length - 1000)).length = 1000 := by
      rw [List.length_drop]; omega
    have hlen1 : (vs.drop (vs.length - 1000) ++ [v]).length = 1001 := by
      simp [hdlen]
    rw [if_pos (by rw [hlen1]; omega)]
    rw [hlen1]
    rw [List.drop_append_of_le_length (by rw [hdlen]; omega)]
    rw [List.drop_drop]
    have h2 : (vs ++ [v]).length - 1000 = vs.length + 1 - 1000 := by simp
    rw [h2]
    rw [List.drop_append_of_le_length (by omega)]
    congr 2
    omega

theorem agg_after_gen (name : String) :
    ∀ (calls : List (String × Rat)) (vs : List Rat),
      calls.foldl (fun acc c => if c.1 == name then record_values acc c.2 else acc)
        (lastN 1000 vs)
        = lastN 1000 (vs ++ values_of calls name) := by
  intro calls
  induction calls with
  | nil => intro vs; simp [values_of]
  | cons c rest ih =>
      intro vs
      rw [List.foldl_cons]
      by_cases hc : (c.1 == name) = true
      · rw [if_pos hc]
        rw [record_values_lastN]
        rw [ih (vs ++ [c.2])]
        have hv : values_of (c :: rest) name = c.2 :: values_of rest name := by
          unfold values_of
          rw [List.filterMap_cons]
          rw [if_pos hc]
        rw [hv]
        rw [List.append_assoc]
        rfl
      · rw [if_neg hc]
        rw [ih vs]
        have hv : values_of (c :: rest) name = values_of rest name := by
          unfold values_of
          rw [List.filterMap_cons]
          rw [if_neg hc]
        rw [hv]

theorem agg_after_eq (calls : List (String × Rat)) (name : String) :
    agg_after calls name = lastN 1000 (values_of calls name) := by
  unfold agg_after
  have h := agg_after_gen name calls []
  simpa [lastN] using h

/-- Claim C8: after any sequence of `record_metric` calls, the per-name
sample list holds exactly the most recent (at most 1000) values recorded
for that name, and `get_metric_summary` is computed from exactly that
capped list, so its reported count equals that list's length and never
exceeds 1000. -/
theorem claim_C8_metric_capping (calls : List (String × Rat)) (name : String) :
    agg_after calls name = lastN 1000 (values_of calls name)
    ∧ (agg_after calls name).length ≤ 1000
    ∧ (get_metric_summary (agg_after calls name)).count
        = (agg_after calls name).length
    ∧ (get_metric_summary (agg_after calls name)).count ≤ 1000 := by
  have h1 := agg_after_eq calls name
  have h2 : (agg_after calls name).length ≤ 1000 := by
    rw [h1]
    unfold lastN
    rw [List.length_drop]
    omega
  have h3 : (get_metric_summary (agg_after calls name)).count
      = (agg_after calls name).length := by
    unfold get_metric_summary
    by_cases he : (agg_after calls name).isEmpty
    · rw [if_pos he]
      simp [List.isEmpty_iff.mp he]
    · rw [if_neg he]
  exact ⟨h1, h2, h3, by omega⟩

end Crawler
